import Mathlib

/-! # PCI configuration-space access and bus enumeration (kernel/pci.cpp, kernel/pci.hpp)

A shallow embedding of the PCI subsystem of the kernel.

* `uint8_t`, `uint16_t`, `uint32_t`, `uint64_t` and `unsigned int` values are natural
  numbers; a truncation is written `% 2 ^ w` where the source can overflow.
* `int num_device` is an integer, and the array `devices` is read and written through an
  integer index.
* The two I/O ports are part of the machine state: the value latched in CONFIG_ADDRESS and
  the log of all port accesses made so far.
* The recursion `ScanBus → ScanDevice → ScanFunction → ScanBus` is bounded by a fuel
  argument that counts nested `ScanBus` calls; `none` means the fuel ran out.
-/

namespace pci

/-! ## Data model (pci.hpp) -/

/-- Modelled from the spec: error.hpp is not among the sources. An `Error` carries a kind
(and, for diagnostics only, a source location, which is left out here). -/
inductive Error
  | kSuccess
  | kFull
  | kIndexOutOfRange
deriving DecidableEq

/-- Modelled from the spec: the conversion of an `Error` to `bool` used in
`if(auto err = ...)`; it is true exactly for a kind other than `kSuccess`. -/
def Error.failed : Error → Bool
  | Error.kSuccess => false
  | _ => true

/-- Modelled from the spec: the macro `MAKE_ERROR(kind)` of error.hpp, which builds the
`Error` of that kind (the file name and line it also records are left out). -/
def MAKE_ERROR (kind : Error) : Error := kind

/-- CONFIG_ADDRESS register I/O port address. -/
def kConfigAddress : Nat := 0x0cf8

/-- CONFIG_DATA register I/O port address. -/
def kConfigData : Nat := 0x0cfc

/-- The three 8-bit fields of a PCI class code. -/
structure ClassCode where
  base : Nat
  sub : Nat
  interface : Nat
deriving DecidableEq

/-- The method `ClassCode::Match(b)`. -/
def ClassCode.Match (c : ClassCode) (b : Nat) : Bool := b == c.base

/-- The method `ClassCode::Match(b, s)`. -/
def ClassCode.Match2 (c : ClassCode) (b s : Nat) : Bool := c.Match b && s == c.sub

/-- The method `ClassCode::Match(b, s, i)`. -/
def ClassCode.Match3 (c : ClassCode) (b s i : Nat) : Bool := c.Match2 b s && i == c.interface

/-- One PCI function, as stored in the device list. -/
structure Device where
  bus : Nat
  device : Nat
  function : Nat
  header_type : Nat
  class_code : ClassCode
deriving DecidableEq

/-- The function `CalcBarAddress(bar_index)`: an `unsigned int` expression truncated to `uint8_t`. -/
def CalcBarAddress (bar_index : Nat) : Nat := ((0x10 + 4 * bar_index) % 2 ^ 32) % 2 ^ 8

/-! ## Machine state -/

/-- One access to an I/O port. -/
inductive PortOp
  | out32 (port value : Nat)
  | in32 (port : Nat)
deriving DecidableEq

/-- The contents of configuration space: the 32-bit register selected by each value of
CONFIG_ADDRESS. -/
abbrev ConfigSpace := Nat → Nat

/-- The mutable state the subsystem works on: the two ports and the two globals
`devices` and `num_device`. -/
structure Machine where
  config_address : Nat
  trace : List PortOp
  devices : Int → Device
  num_device : Int

/-- Modelled from the spec: `IoOut32(port, value)` of asmfunc.h (not among the sources), a
32-bit write to an I/O port. A write to CONFIG_ADDRESS latches the address; every write is
logged. -/
def IoOut32 (port value : Nat) (s : Machine) : Machine :=
  { s with
    config_address := if port = kConfigAddress then value else s.config_address
    trace := s.trace ++ [PortOp.out32 port value] }

/-- Modelled from the spec: `IoIn32(port)` of asmfunc.h (not among the sources), a 32-bit
read of an I/O port. A read of CONFIG_DATA gives the register selected by the latched
address; every read is logged. -/
def IoIn32 (conf : ConfigSpace) (port : Nat) (s : Machine) : Nat × Machine :=
  (if port = kConfigData then conf s.config_address % 2 ^ 32 else 0,
   { s with trace := s.trace ++ [PortOp.in32 port] })

/-! ## pci.cpp, anonymous namespace -/

/-- The lambda `sh1` of `MakeAddress`: a left shift of a `uint32_t`. -/
def sh1 (x bits : Nat) : Nat := (x <<< bits) % 2 ^ 32

/-- The function `MakeAddress`: the 32-bit value for CONFIG_ADDRESS. The four arguments are `uint8_t`
values. -/
def MakeAddress (bus device function reg_addr : Nat) : Nat :=
  sh1 1 31 ||| sh1 bus 16 ||| sh1 device 11 ||| sh1 function 8 ||| (reg_addr &&& 0xfc)

/-- The function `AddDevice(const Device&)`: write to `devices[num_device]` and increment
`num_device`. -/
def AddDevice (device : Device) (s : Machine) : Error × Machine :=
  if s.num_device = 32 then
    (MAKE_ERROR Error.kFull, s)
  else
    (MAKE_ERROR Error.kSuccess,
     { s with
       devices := Function.update s.devices s.num_device device
       num_device := s.num_device + 1 })

/-! ## pci.cpp, namespace pci: port access -/

/-- The function `WriteAddress`. -/
def WriteAddress (address : Nat) (s : Machine) : Machine := IoOut32 kConfigAddress address s

/-- The function `WriteData`. -/
def WriteData (value : Nat) (s : Machine) : Machine := IoOut32 kConfigData value s

/-- The function `ReadData`. -/
def ReadData (conf : ConfigSpace) (s : Machine) : Nat × Machine := IoIn32 conf kConfigData s

/-- The function `ReadVendorId(bus, device, function)`. -/
def ReadVendorId (conf : ConfigSpace) (bus device function : Nat) (s : Machine) :
    Nat × Machine :=
  let r := ReadData conf (WriteAddress (MakeAddress bus device function 0x00) s)
  (r.1 &&& 0xffff, r.2)

/-- The function `ReadDeviceId(bus, device, function)`. -/
def ReadDeviceId (conf : ConfigSpace) (bus device function : Nat) (s : Machine) :
    Nat × Machine :=
  let r := ReadData conf (WriteAddress (MakeAddress bus device function 0x00) s)
  ((r.1 >>> 16) % 2 ^ 16, r.2)

/-- The function `ReadHeaderType(bus, device, function)`. -/
def ReadHeaderType (conf : ConfigSpace) (bus device function : Nat) (s : Machine) :
    Nat × Machine :=
  let r := ReadData conf (WriteAddress (MakeAddress bus device function 0x0c) s)
  ((r.1 >>> 16) &&& 0xff, r.2)

/-- The function `ReadClassCode(bus, device, function)`. -/
def ReadClassCode (conf : ConfigSpace) (bus device function : Nat) (s : Machine) :
    ClassCode × Machine :=
  let r := ReadData conf (WriteAddress (MakeAddress bus device function 0x08) s)
  let reg := r.1
  ({ base := (reg >>> 24) &&& 0xff
     sub := (reg >>> 16) &&& 0xff
     interface := (reg >>> 8) &&& 0xff }, r.2)

/-- The function `ReadBusNumbers(bus, device, function)`. -/
def ReadBusNumbers (conf : ConfigSpace) (bus device function : Nat) (s : Machine) :
    Nat × Machine :=
  ReadData conf (WriteAddress (MakeAddress bus device function 0x18) s)

/-- The function `IsSingleFunctionDevice(header_type)`. -/
def IsSingleFunctionDevice (header_type : Nat) : Bool := (header_type &&& 0x80) == 0

/-! ## pci.cpp: the scanner -/

/-- The function `ScanFunction(bus, device, function)`; `scanBus` is the recursive callee `ScanBus`. -/
def ScanFunction (scanBus : Nat → Machine → Option (Error × Machine)) (conf : ConfigSpace)
    (bus device function : Nat) (s : Machine) : Option (Error × Machine) :=
  let r1 := ReadClassCode conf bus device function s
  let class_code := r1.1
  let r2 := ReadHeaderType conf bus device function r1.2
  let header_type := r2.1
  let dev : Device := ⟨bus, device, function, header_type, class_code⟩
  let r3 := AddDevice dev r2.2
  if r3.1.failed then
    some r3
  else if class_code.Match2 0x06 0x04 then
    -- standard PCI-PCI bridge
    let r4 := ReadBusNumbers conf bus device function r3.2
    let bus_numbers := r4.1
    let secondary_bus := (bus_numbers >>> 8) &&& 0xff
    scanBus secondary_bus r4.2
  else
    some (MAKE_ERROR Error.kSuccess, r3.2)

/-- The `for` loop of `ScanDevice` over the function numbers still to visit. -/
def ScanDeviceLoop (scanBus : Nat → Machine → Option (Error × Machine)) (conf : ConfigSpace)
    (bus device : Nat) : List Nat → Machine → Option (Error × Machine)
  | [], s => some (MAKE_ERROR Error.kSuccess, s)
  | function :: rest, s =>
    let r := ReadVendorId conf bus device function s
    if r.1 = 0xffff then
      ScanDeviceLoop scanBus conf bus device rest r.2
    else
      match ScanFunction scanBus conf bus device function r.2 with
      | none => none
      | some (err, s2) =>
        if err.failed then some (err, s2)
        else ScanDeviceLoop scanBus conf bus device rest s2

/-- The function `ScanDevice(bus, device)`. -/
def ScanDevice (scanBus : Nat → Machine → Option (Error × Machine)) (conf : ConfigSpace)
    (bus device : Nat) (s : Machine) : Option (Error × Machine) :=
  match ScanFunction scanBus conf bus device 0 s with
  | none => none
  | some (err, s1) =>
    if err.failed then some (err, s1)
    else
      let r := ReadHeaderType conf bus device 0 s1
      if IsSingleFunctionDevice r.1 then
        some (MAKE_ERROR Error.kSuccess, r.2)
      else
        ScanDeviceLoop scanBus conf bus device (List.range' 1 7) r.2

/-- The `for` loop of `ScanBus` over the device numbers still to visit. -/
def ScanBusLoop (scanBus : Nat → Machine → Option (Error × Machine)) (conf : ConfigSpace)
    (bus : Nat) : List Nat → Machine → Option (Error × Machine)
  | [], s => some (MAKE_ERROR Error.kSuccess, s)
  | device :: rest, s =>
    let r := ReadVendorId conf bus device 0 s
    if r.1 = 0xffff then
      ScanBusLoop scanBus conf bus rest r.2
    else
      match ScanDevice scanBus conf bus device r.2 with
      | none => none
      | some (err, s2) =>
        if err.failed then some (err, s2)
        else ScanBusLoop scanBus conf bus rest s2

/-- The function `ScanBus(bus)`, with `fuel` bounding the number of nested `ScanBus` calls. -/
def ScanBus (conf : ConfigSpace) : Nat → Nat → Machine → Option (Error × Machine)
  | 0, _, _ => none
  | fuel + 1, bus, s => ScanBusLoop (ScanBus conf fuel) conf bus (List.range 32) s

/-- The `for` loop of `ScanAllBus` over the function numbers still to visit. -/
def ScanAllBusLoop (conf : ConfigSpace) (fuel : Nat) :
    List Nat → Machine → Option (Error × Machine)
  | [], s => some (MAKE_ERROR Error.kSuccess, s)
  | function :: rest, s =>
    let r := ReadVendorId conf 0 0 function s
    if r.1 = 0xffff then
      ScanAllBusLoop conf fuel rest r.2
    else
      match ScanBus conf fuel function r.2 with
      | none => none
      | some (err, s2) =>
        if err.failed then some (err, s2)
        else ScanAllBusLoop conf fuel rest s2

/-- The function `ScanAllBus()`. -/
def ScanAllBus (conf : ConfigSpace) (fuel : Nat) (s : Machine) : Option (Error × Machine) :=
  let s0 := { s with num_device := 0 }
  let r := ReadHeaderType conf 0 0 0 s0
  let header_type := r.1
  if IsSingleFunctionDevice header_type then
    ScanBus conf fuel 0 r.2
  else
    ScanAllBusLoop conf fuel (List.range' 1 7) r.2

/-! ## pci.cpp: register access and BAR decoding -/

/-- The function `ReadConfReg(dev, reg_addr)`. -/
def ReadConfReg (conf : ConfigSpace) (dev : Device) (reg_addr : Nat) (s : Machine) :
    Nat × Machine :=
  ReadData conf (WriteAddress (MakeAddress dev.bus dev.device dev.function reg_addr) s)

/-- The function `WriteConfReg(dev, reg_addr, value)`. -/
def WriteConfReg (dev : Device) (reg_addr value : Nat) (s : Machine) : Machine :=
  WriteData value (WriteAddress (MakeAddress dev.bus dev.device dev.function reg_addr) s)

/-- The function `ReadBar(device, bar_index)`: the value and the error of the `WithError<uint64_t>`,
and the machine afterwards. -/
def ReadBar (conf : ConfigSpace) (device : Device) (bar_index : Nat) (s : Machine) :
    (Nat × Error) × Machine :=
  if bar_index ≥ 6 then
    ((0, MAKE_ERROR Error.kIndexOutOfRange), s)
  else
    let addr := CalcBarAddress bar_index
    let r := ReadConfReg conf device addr s
    let bar := r.1
    if bar &&& 4 = 0 then
      ((bar, MAKE_ERROR Error.kSuccess), r.2)
    else if bar_index ≥ 5 then
      ((0, MAKE_ERROR Error.kIndexOutOfRange), r.2)
    else
      let r2 := ReadConfReg conf device ((addr + 4) % 2 ^ 8) r.2
      let bar_upper := r2.1
      ((bar ||| ((bar_upper <<< 32) % 2 ^ 64), MAKE_ERROR Error.kSuccess), r2.2)

/-- The valid entries `devices[0 .. num_device)` of the device list, in order. -/
def registry (s : Machine) : List Device :=
  List.map (fun i : Nat => s.devices (Int.ofNat i)) (List.range s.num_device.toNat)

/-! ## The configuration-space model and its depth-first traversal

The definitions of this section do not embed code: they state, in the words of the
specification, what a configuration-space model holds for a (bus, device, function) triple
and in which order a depth-first traversal visits the functions of the model. -/

/-- Vendor id the model gives for a triple: bits 15-0 of the register at offset 0x00. -/
def modelVendorId (conf : ConfigSpace) (b d f : Nat) : Nat :=
  conf (MakeAddress b d f 0x00) % 2 ^ 16

/-- Header type the model gives for a triple: bits 23-16 of the register at offset 0x0C. -/
def modelHeaderType (conf : ConfigSpace) (b d f : Nat) : Nat :=
  conf (MakeAddress b d f 0x0c) / 2 ^ 16 % 2 ^ 8

/-- Class code the model gives for a triple: bits 31-24, 23-16 and 15-8 of the register at
offset 0x08. -/
def modelClassCode (conf : ConfigSpace) (b d f : Nat) : ClassCode :=
  { base := conf (MakeAddress b d f 0x08) / 2 ^ 24 % 2 ^ 8
    sub := conf (MakeAddress b d f 0x08) / 2 ^ 16 % 2 ^ 8
    interface := conf (MakeAddress b d f 0x08) / 2 ^ 8 % 2 ^ 8 }

/-- Secondary bus the model gives for a triple: bits 15-8 of the bus-numbers register at
offset 0x18. -/
def modelSecondaryBus (conf : ConfigSpace) (b d f : Nat) : Nat :=
  conf (MakeAddress b d f 0x18) / 2 ^ 8 % 2 ^ 8

/-- The device record of a triple: the triple with the header type and the class code the
model gives for it. -/
def modelDevice (conf : ConfigSpace) (b d f : Nat) : Device :=
  { bus := b, device := d, function := f
    header_type := modelHeaderType conf b d f
    class_code := modelClassCode conf b d f }

/-- A function is present when its vendor id is not the sentinel 0xFFFF. -/
def modelPresent (conf : ConfigSpace) (b d f : Nat) : Bool :=
  modelVendorId conf b d f != 0xFFFF

/-- A function is a PCI-to-PCI bridge when its class code has base 0x06 and sub 0x04. -/
def modelIsBridge (conf : ConfigSpace) (b d f : Nat) : Bool :=
  (modelClassCode conf b d f).base == 0x06 && (modelClassCode conf b d f).sub == 0x04

/-- A device is multi-function when bit 7 of the header type of its function 0 is set. -/
def modelMultiFunction (conf : ConfigSpace) (b d : Nat) : Bool :=
  modelHeaderType conf b d 0 / 2 ^ 7 % 2 == 1

/-- A (possibly cut short) traversal: the functions visited so far, in order, and whether
the traversal ran to its end. -/
abbrev Walk := List Device × Bool

/-- One traversal after another; the second does not start when the first was cut short. -/
def Walk.seq (w1 w2 : Walk) : Walk :=
  if w1.2 then (w1.1 ++ w2.1, w2.2) else w1

/-- The traversals of the items of a list, one after another. -/
def Walk.all {α : Type} (g : α → Walk) (xs : List α) : Walk :=
  xs.foldr (fun x acc => (g x).seq acc) ([], true)

/-- Visit one function: the function itself, then, for a bridge, its secondary bus. -/
def dfsFunction (dfsBus : Nat → Walk) (conf : ConfigSpace) (b d f : Nat) : Walk :=
  if modelIsBridge conf b d f then
    (modelDevice conf b d f :: (dfsBus (modelSecondaryBus conf b d f)).1,
     (dfsBus (modelSecondaryBus conf b d f)).2)
  else
    ([modelDevice conf b d f], true)

/-- Visit one device: function 0 always; the present functions among 1..7 only when the
device is multi-function. -/
def dfsDevice (dfsBus : Nat → Walk) (conf : ConfigSpace) (b d : Nat) : Walk :=
  if modelMultiFunction conf b d then
    (dfsFunction dfsBus conf b d 0).seq
      (Walk.all (dfsFunction dfsBus conf b d)
        ((List.range' 1 7).filter (fun f => modelPresent conf b d f)))
  else
    dfsFunction dfsBus conf b d 0

/-- Visit one bus: the devices 0..31 whose function 0 is present. A traversal nested more
than `depth` buses deep is cut short. -/
def dfsBus (conf : ConfigSpace) : Nat → Nat → Walk
  | 0, _ => ([], false)
  | depth + 1, b =>
    Walk.all (dfsDevice (dfsBus conf depth) conf b)
      ((List.range 32).filter (fun d => modelPresent conf b d 0))

/-- The whole traversal: bus 0 when the root (0, 0, 0) is single-function, otherwise the
buses numbered by the present functions 1..7 of the root. -/
def dfsAll (conf : ConfigSpace) (depth : Nat) : Walk :=
  if modelMultiFunction conf 0 0 then
    Walk.all (dfsBus conf depth)
      ((List.range' 1 7).filter (fun f => modelPresent conf 0 0 f))
  else
    dfsBus conf depth 0

/-! ## Refinement of a traversal by a scan -/

/-- Run `c1`, and run `c2` after it unless `c1` failed: the shape of
`if(auto err = c1()){ return err; } c2();` in the scanner. -/
def bindScan (c1 c2 : Machine → Option (Error × Machine)) (s : Machine) :
    Option (Error × Machine) :=
  match c1 s with
  | none => none
  | some (err, s2) => if err.failed then some (err, s2) else c2 s2

/-- The scan `c` refines the traversal `w`: started with `k` valid entries (at least `lo`,
which stands for the fuel `c` has), and provided `w` ran to its end or overflows the
registry, `c` returns; it returns `kSuccess` when the functions of `w` fit and `kFull`
otherwise, appends the functions of `w` to the registry as far as the capacity of 32
allows, and writes no cell outside `devices[0 .. 32)`. -/
def Refines (lo : Nat) (c : Machine → Option (Error × Machine)) (w : Walk) : Prop :=
  ∀ (s : Machine) (k : Nat), s.num_device = (k : Int) → k ≤ 32 → lo ≤ k →
    (w.2 = true ∨ 32 < k + w.1.length) →
    ∃ s', c s = some (if k + w.1.length ≤ 32 then Error.kSuccess else Error.kFull, s')
      ∧ s'.num_device = ((min (k + w.1.length) 32 : Nat) : Int)
      ∧ registry s' = registry s ++ w.1.take (32 - k)
      ∧ ∀ i : Int, (i < 0 ∨ 32 ≤ i) → s'.devices i = s.devices i

/-- A traversal that was cut short visited at least `m` functions. -/
def Walk.Long (m : Nat) (w : Walk) : Prop := w.2 = false → m ≤ w.1.length


/-! ## Concrete models and states -/

/-- A device record with every field zero. -/
def Device.zero : Device :=
  { bus := 0, device := 0, function := 0, header_type := 0,
    class_code := { base := 0, sub := 0, interface := 0 } }

/-- A machine state before any scan: nothing latched, nothing logged, an empty registry. -/
def Machine.initial : Machine :=
  { config_address := 0, trace := [], devices := fun _ => Device.zero, num_device := 0 }

/-- A machine state whose registry is full. -/
def Machine.full : Machine :=
  { config_address := 0, trace := [], devices := fun _ => Device.zero, num_device := 32 }

/-- The bridge model: the root (0, 0, 0) is single-function and absent, (0, 3, 0) is a
PCI-to-PCI bridge with secondary bus 1, (1, 0, 0) is an ordinary device (a USB host
controller), every other triple is absent. -/
def bridgeModel : ConfigSpace := fun a =>
  if a = MakeAddress 0 0 0 0x0c then 0x00000000
  else if a = MakeAddress 0 3 0 0x00 then 0x00011234
  else if a = MakeAddress 0 3 0 0x08 then 0x06040000
  else if a = MakeAddress 0 3 0 0x0c then 0x00010000
  else if a = MakeAddress 0 3 0 0x18 then 0x00010100
  else if a = MakeAddress 1 0 0 0x00 then 0x00028086
  else if a = MakeAddress 1 0 0 0x08 then 0x0c033000
  else if a = MakeAddress 1 0 0 0x0c then 0x00000000
  else 0xFFFFFFFF

/-- A model with 40 functions: on bus 0 the devices 1..5 are multi-function with all eight
functions present and none a bridge; every other triple is absent and the root (0, 0, 0)
is single-function. -/
def fortyModel : ConfigSpace := fun a =>
  if a / 2 ^ 16 % 2 ^ 8 = 0 ∧ 1 ≤ a / 2 ^ 11 % 2 ^ 5 ∧ a / 2 ^ 11 % 2 ^ 5 ≤ 5 then
    if a % 2 ^ 8 = 0x00 then 0x00011234
    else if a % 2 ^ 8 = 0x08 then 0x0c033000
    else if a % 2 ^ 8 = 0x0c then 0x00800000
    else 0
  else if a % 2 ^ 8 = 0x0c then 0x00000000
  else 0xFFFFFFFF

/-- A cyclic model: (0, 0, 0) is a single-function PCI-to-PCI bridge whose secondary bus is
bus 0 itself; every other triple is absent. -/
def cyclicModel : ConfigSpace := fun a =>
  if a = MakeAddress 0 0 0 0x00 then 0x00011234
  else if a = MakeAddress 0 0 0 0x08 then 0x06040000
  else if a = MakeAddress 0 0 0 0x0c then 0x00010000
  else if a = MakeAddress 0 0 0 0x18 then 0x00000000
  else 0xFFFFFFFF

/-- The BAR register of index `i` of a device, as configuration space holds it: the 32-bit
register at offset 0x10 + 4·i. -/
def barRegister (conf : ConfigSpace) (device : Device) (i : Nat) : Nat :=
  conf (MakeAddress device.bus device.device device.function (0x10 + 4 * i)) % 2 ^ 32

/-- A model of one device at (0, 0, 0) whose BAR0 is 0xE0000004 and BAR1 is 0x00000002:
a 64-bit BAR pair; its other registers are zero. -/
def bar64Model : ConfigSpace := fun a =>
  if a = MakeAddress 0 0 0 0x10 then 0xE0000004
  else if a = MakeAddress 0 0 0 0x14 then 0x00000002
  else 0

/-- A model of one device at (0, 0, 0) whose BAR0 is 0xF0000008 (bit 2 clear, bit 3 set)
and whose BAR5 is 0xFEBF0004 (bit 2 set); its other registers are zero. -/
def bar32Model : ConfigSpace := fun a =>
  if a = MakeAddress 0 0 0 0x10 then 0xF0000008
  else if a = MakeAddress 0 0 0 0x24 then 0xFEBF0004
  else 0

/-- A model of one device at (0, 0, 0) whose BAR0 is 0xF0000004 (bit 2 set) and whose BAR1
is 0x00000002; its other registers are zero. -/
def barF4Model : ConfigSpace := fun a =>
  if a = MakeAddress 0 0 0 0x10 then 0xF0000004
  else if a = MakeAddress 0 0 0 0x14 then 0x00000002
  else 0

/-! ## Port-access traces -/

/-- A trace respects the two-register protocol when it is a concatenation of pairs, each a
write of the address port followed by one read or one write of the data port. -/
def Paired : List PortOp → Bool
  | [] => true
  | PortOp.out32 p _ :: PortOp.in32 q :: rest =>
    p == kConfigAddress && q == kConfigData && Paired rest
  | PortOp.out32 p _ :: PortOp.out32 q _ :: rest =>
    p == kConfigAddress && q == kConfigData && Paired rest
  | _ => false

/-- The number of address writes in a trace that select the class-code register (offset
0x08). In the scanner only `ScanFunction` reads that register, once per call, so on a trace
of the scanner this is the number of `ScanFunction` calls. -/
def classCodeReads : List PortOp → Nat
  | [] => 0
  | PortOp.out32 p a :: rest =>
    (if p = kConfigAddress ∧ a % 2 ^ 8 = 0x08 then 1 else 0) + classCodeReads rest
  | PortOp.in32 _ :: rest => classCodeReads rest

/-- The port accesses of one register read: the address write and the data read. -/
def readOps (a : Nat) : List PortOp := [PortOp.out32 kConfigAddress a, PortOp.in32 kConfigData]

/-- What a run of a part of the scanner from `s` to `s'` with result `e` leaves behind: the
accesses `t` it added to the trace are paired; `num_device` did not decrease and is at most
32; on `kSuccess` there were as many `ScanFunction` calls as additions; on a failure the
error is `kFull`, there was one `ScanFunction` call more than additions, the registry is
full, and `s'` is the state in which the failing `ScanFunction (b, d, f)` called
`AddDevice`, that is, the state right after its header-type read. -/
def Trail (conf : ConfigSpace) (s : Machine) (e : Error) (s' : Machine) : Prop :=
  ∃ t, s'.trace = s.trace ++ t ∧ Paired t = true
    ∧ s.num_device ≤ s'.num_device ∧ s'.num_device ≤ 32
    ∧ (e = Error.kSuccess → (classCodeReads t : Int) = s'.num_device - s.num_device)
    ∧ (e ≠ Error.kSuccess → e = Error.kFull
        ∧ (classCodeReads t : Int) = s'.num_device - s.num_device + 1
        ∧ s'.num_device = 32
        ∧ ∃ b d f s0 t0, s' = (ReadHeaderType conf b d f (ReadClassCode conf b d f s0).2).2
            ∧ t = t0 ++ (readOps (MakeAddress b d f 0x08) ++ readOps (MakeAddress b d f 0x0c)))

/-- Every run of `c` from a state with `0 ≤ num_device ≤ 32` that returns leaves a trail. -/
def Trails (conf : ConfigSpace) (c : Machine → Option (Error × Machine)) : Prop :=
  ∀ s e s', 0 ≤ s.num_device → s.num_device ≤ 32 → c s = some (e, s') → Trail conf s e s'

/-! ## Outcomes up to the state of the ports -/

/-- Two machine states hold the same registry: the same `devices` and `num_device`. -/
def SameRegistry (s t : Machine) : Prop :=
  s.devices = t.devices ∧ s.num_device = t.num_device

/-- Two runs have the same outcome: both run out of fuel, or both return, with the same
error kind and the same registry. -/
def SameOutcome (r1 r2 : Option (Error × Machine)) : Prop :=
  match r1, r2 with
  | none, none => True
  | some (e1, s1), some (e2, s2) => e1 = e2 ∧ SameRegistry s1 s2
  | _, _ => False

/-- Two computations behave alike: from states with the same registry they have the same
outcome. -/
def Alike (c c' : Machine → Option (Error × Machine)) : Prop :=
  ∀ s t, SameRegistry s t → SameOutcome (c s) (c' t)

/-- Run `ScanBus` for each bus of a list, in order, stopping at the first failure. -/
def scanBuses (conf : ConfigSpace) (fuel : Nat) :
    List Nat → Machine → Option (Error × Machine)
  | [], s => some (Error.kSuccess, s)
  | b :: rest, s =>
    match ScanBus conf fuel b s with
    | none => none
    | some (e, s1) => if e.failed then some (e, s1) else scanBuses conf fuel rest s1

/-- A model with a multi-function root whose functions 1..7 are all absent, although
devices are present on bus 0: (0, 0, 0) and (0, 1, 0) have vendor id 0x1234. -/
def multiRootModel : ConfigSpace := fun a =>
  if a = MakeAddress 0 0 0 0x0c then 0x00800000
  else if a = MakeAddress 0 0 0 0x00 then 0x00011234
  else if a = MakeAddress 0 1 0 0x00 then 0x00021234
  else if a = MakeAddress 0 1 0 0x0c then 0x00000000
  else 0xFFFFFFFF

/-- The scan of a multi-function root, in the words of the specification: for each
function number of the list, in order, the vendor id at (0, 0, f) is read; when it is not
0xFFFF, `ScanBus(f)` runs, and its failure ends the scan. -/
def scanRootBuses (conf : ConfigSpace) (fuel : Nat) :
    List Nat → Machine → Option (Error × Machine)
  | [], s => some (Error.kSuccess, s)
  | f :: rest, s =>
    if modelVendorId conf 0 0 f ≠ 0xFFFF then
      match ScanBus conf fuel f (ReadVendorId conf 0 0 f s).2 with
      | none => none
      | some (e, s1) => if e.failed then some (e, s1) else scanRootBuses conf fuel rest s1
    else
      scanRootBuses conf fuel rest (ReadVendorId conf 0 0 f s).2

/-! ## Basic facts about the address encoding -/

set_option maxRecDepth 100000 in
theorem and_fc_eq (r : Nat) (hr : r < 256) : r &&& 0xfc = 4 * (r / 4) := by
  revert r
  decide

theorem MakeAddress_eq_sum (bus device function reg_addr : Nat) (hb : bus < 256)
    (hd : device < 32) (hf : function < 8) (hr : reg_addr < 256) :
    MakeAddress bus device function reg_addr
      = 2 ^ 31 + bus * 2 ^ 16 + device * 2 ^ 11 + function * 2 ^ 8 + 4 * (reg_addr / 4) := by
  unfold MakeAddress sh1
  simp only [Nat.shiftLeft_eq]
  rw [and_fc_eq reg_addr hr]
  rw [Nat.mod_eq_of_lt (by omega), Nat.mod_eq_of_lt (by omega), Nat.mod_eq_of_lt (by omega),
    Nat.mod_eq_of_lt (by omega)]
  have e1 : 1 * 2 ^ 31 ||| bus * 2 ^ 16 = 2 ^ 16 * (2 ^ 15 + bus) := by
    have h := Nat.mul_add_lt_is_or (i := 31) (b := bus * 2 ^ 16) (by omega) 1
    rw [show (1 * 2 ^ 31 : Nat) = 2 ^ 31 * 1 by norm_num, ← h]; omega
  have e2 : 2 ^ 16 * (2 ^ 15 + bus) ||| device * 2 ^ 11
      = 2 ^ 11 * (2 ^ 20 + bus * 2 ^ 5 + device) := by
    rw [← Nat.mul_add_lt_is_or (i := 16) (b := device * 2 ^ 11) (by omega)]; omega
  have e3 : 2 ^ 11 * (2 ^ 20 + bus * 2 ^ 5 + device) ||| function * 2 ^ 8
      = 2 ^ 8 * (2 ^ 23 + bus * 2 ^ 8 + device * 2 ^ 3 + function) := by
    rw [← Nat.mul_add_lt_is_or (i := 11) (b := function * 2 ^ 8) (by omega)]; omega
  rw [e1, e2, e3, ← Nat.mul_add_lt_is_or (i := 8) (b := 4 * (reg_addr / 4)) (by omega)]
  omega

/-- C1: for bus < 256, device < 32, function < 8 and an 8-bit register offset,
`MakeAddress` is the 32-bit value with bit 31 set, bits 30-24 clear, bits 23-16 the bus,
bits 15-11 the device, bits 10-8 the function, bits 7-2 the top six bits of the offset and
bits 1-0 clear; it equals the encoding of the offset masked with 0xFC, and
`MakeAddress 1 2 3 0x10` is 0x80011310. -/
theorem MakeAddress_layout (bus device function reg_addr : Nat) (hb : bus < 256)
    (hd : device < 32) (hf : function < 8) (hr : reg_addr < 256) :
    MakeAddress bus device function reg_addr
        = 2 ^ 31 + bus * 2 ^ 16 + device * 2 ^ 11 + function * 2 ^ 8 + (reg_addr / 4) * 2 ^ 2
      ∧ MakeAddress bus device function reg_addr < 2 ^ 32
      ∧ MakeAddress bus device function reg_addr / 2 ^ 31 % 2 = 1
      ∧ MakeAddress bus device function reg_addr / 2 ^ 24 % 2 ^ 7 = 0
      ∧ MakeAddress bus device function reg_addr / 2 ^ 16 % 2 ^ 8 = bus
      ∧ MakeAddress bus device function reg_addr / 2 ^ 11 % 2 ^ 5 = device
      ∧ MakeAddress bus device function reg_addr / 2 ^ 8 % 2 ^ 3 = function
      ∧ MakeAddress bus device function reg_addr / 2 ^ 2 % 2 ^ 6 = reg_addr / 2 ^ 2
      ∧ MakeAddress bus device function reg_addr % 2 ^ 2 = 0
      ∧ MakeAddress bus device function reg_addr
          = MakeAddress bus device function (reg_addr &&& 0xFC)
      ∧ MakeAddress 1 2 3 0x10
          = (0x80000000 ||| (1 <<< 16) ||| (2 <<< 11) ||| (3 <<< 8) ||| (0x10 &&& 0xFC))
      ∧ MakeAddress 1 2 3 0x10 = 0x80011310 := by
  have h := MakeAddress_eq_sum bus device function reg_addr hb hd hf hr
  have e := and_fc_eq reg_addr hr
  have h2 := MakeAddress_eq_sum bus device function (reg_addr &&& 0xfc) hb hd hf (by omega)
  refine ⟨?_, ?_, ?_, ?_, ?_, ?_, ?_, ?_, ?_, ?_, by decide, by decide⟩ <;> omega

/-- Witness of C1 at bus 1, device 2, function 3, offset 0x13. -/
theorem MakeAddress_layout_witness :
    MakeAddress 1 2 3 0x13 / 2 ^ 16 % 2 ^ 8 = 1
      ∧ MakeAddress 1 2 3 0x13 / 2 ^ 2 % 2 ^ 6 = 0x13 / 2 ^ 2
      ∧ MakeAddress 1 2 3 0x13 % 2 ^ 2 = 0 :=
  have h := MakeAddress_layout 1 2 3 0x13 (by decide) (by decide) (by decide) (by decide)
  ⟨h.2.2.2.2.1, h.2.2.2.2.2.2.2.1, h.2.2.2.2.2.2.2.2.1⟩

/-! ## What the accessors read -/

theorem and_ff_eq (x : Nat) : x &&& 0xff = x % 2 ^ 8 :=
  Nat.and_pow_two_sub_one_eq_mod x 8

theorem and_ffff_eq (x : Nat) : x &&& 0xffff = x % 2 ^ 16 :=
  Nat.and_pow_two_sub_one_eq_mod x 16

theorem ReadData_WriteAddress_fst (conf : ConfigSpace) (a : Nat) (s : Machine) :
    (ReadData conf (WriteAddress a s)).1 = conf a % 2 ^ 32 := by
  simp [ReadData, WriteAddress, IoIn32, IoOut32]

theorem ReadData_WriteAddress_devices (conf : ConfigSpace) (a : Nat) (s : Machine) :
    (ReadData conf (WriteAddress a s)).2.devices = s.devices := rfl

theorem ReadData_WriteAddress_num_device (conf : ConfigSpace) (a : Nat) (s : Machine) :
    (ReadData conf (WriteAddress a s)).2.num_device = s.num_device := rfl

theorem ReadVendorId_fst (conf : ConfigSpace) (b d f : Nat) (s : Machine) :
    (ReadVendorId conf b d f s).1 = modelVendorId conf b d f := by
  simp only [ReadVendorId, ReadData_WriteAddress_fst, and_ffff_eq, modelVendorId]
  omega

theorem ReadHeaderType_fst (conf : ConfigSpace) (b d f : Nat) (s : Machine) :
    (ReadHeaderType conf b d f s).1 = modelHeaderType conf b d f := by
  simp only [ReadHeaderType, ReadData_WriteAddress_fst, and_ff_eq, modelHeaderType,
    Nat.shiftRight_eq_div_pow]
  omega

theorem ReadClassCode_fst (conf : ConfigSpace) (b d f : Nat) (s : Machine) :
    (ReadClassCode conf b d f s).1 = modelClassCode conf b d f := by
  simp only [ReadClassCode, ReadData_WriteAddress_fst, and_ff_eq, modelClassCode,
    Nat.shiftRight_eq_div_pow]
  congr 1 <;> omega

theorem ReadBusNumbers_secondary (conf : ConfigSpace) (b d f : Nat) (s : Machine) :
    ((ReadBusNumbers conf b d f s).1 >>> 8) &&& 0xff = modelSecondaryBus conf b d f := by
  simp only [ReadBusNumbers, ReadData_WriteAddress_fst, and_ff_eq, modelSecondaryBus,
    Nat.shiftRight_eq_div_pow]
  omega

theorem IsSingleFunctionDevice_eq (h : Nat) :
    IsSingleFunctionDevice h = !(h / 2 ^ 7 % 2 == 1) := by
  unfold IsSingleFunctionDevice
  have e : h &&& 0x80 = (h.testBit 7).toNat * 2 ^ 7 := Nat.and_two_pow h 7
  rw [e, Nat.testBit_to_div_mod]
  norm_num
  rcases Nat.mod_two_eq_zero_or_one (h / 128) with h0 | h1
  · simp [h0]
  · simp [h1]

/-! ## The scanner refines the traversal -/

theorem registry_congr {s s' : Machine} (hd : s'.devices = s.devices)
    (hn : s'.num_device = s.num_device) : registry s' = registry s := by
  unfold registry
  rw [hd, hn]

theorem registry_of_num_zero {s : Machine} (h : s.num_device = 0) : registry s = [] := by
  unfold registry
  rw [h]
  rfl

theorem registry_length {s : Machine} {k : Nat} (h : s.num_device = (k : Int)) :
    (registry s).length = k := by
  unfold registry
  rw [h]
  simp

theorem registry_AddDevice (dev : Device) (s : Machine) (k : Nat)
    (hk : s.num_device = (k : Int)) :
    registry { s with devices := Function.update s.devices s.num_device dev
                      num_device := s.num_device + 1 } = registry s ++ [dev] := by
  unfold registry
  simp only [hk]
  have e1 : ((k : Int) + 1).toNat = k + 1 := by omega
  have e2 : (k : Int).toNat = k := by omega
  rw [e1, e2, List.range_succ, List.map_append]
  congr 1
  · apply List.map_congr_left
    intro i hi
    have hi' : i < k := List.mem_range.mp hi
    show Function.update s.devices s.num_device dev (Int.ofNat i) = s.devices (Int.ofNat i)
    rw [Function.update_noteq]
    rw [hk]
    simp only [Int.ofNat_eq_coe]
    omega
  · simp only [List.map_cons, List.map_nil, Int.ofNat_eq_coe]
    rw [← hk, Function.update_same]

theorem Refines.mono {lo lo' : Nat} {c : Machine → Option (Error × Machine)} {w : Walk}
    (h : Refines lo c w) (hle : lo ≤ lo') : Refines lo' c w :=
  fun s k hk hk32 hlo hw => h s k hk hk32 (le_trans hle hlo) hw

theorem Refines.done (lo : Nat) :
    Refines lo (fun s => some (MAKE_ERROR Error.kSuccess, s)) ([], true) := by
  intro s k hk hk32 _ _
  refine ⟨s, ?_, ?_, ?_, fun _ _ => rfl⟩
  · simp [MAKE_ERROR, hk32]
  · simp [hk, hk32]
  · simp

theorem Refines.after_read {lo : Nat} {c : Machine → Option (Error × Machine)} {w : Walk}
    (g : Machine → Machine) (hd : ∀ s, (g s).devices = s.devices)
    (hn : ∀ s, (g s).num_device = s.num_device) (h : Refines lo c w) :
    Refines lo (fun s => c (g s)) w := by
  intro s k hk hk32 hlo hw
  obtain ⟨s', h1, h2, h3, h4⟩ := h (g s) k (by rw [hn, hk]) hk32 hlo hw
  refine ⟨s', h1, h2, ?_, ?_⟩
  · rw [h3, registry_congr (hd s) (hn s)]
  · intro i hi
    rw [h4 i hi, hd]

theorem Refines.bind {lo : Nat} {c1 c2 : Machine → Option (Error × Machine)} {w1 w2 : Walk}
    (h1 : Refines lo c1 w1) (h2 : Refines lo c2 w2) :
    Refines lo (bindScan c1 c2) (w1.seq w2) := by
  intro s k hk hk32 hlo hw
  unfold Walk.seq at hw ⊢
  unfold bindScan
  by_cases hfin : w1.2 = true
  · simp only [hfin, if_true] at hw ⊢
    simp only [List.length_append] at hw ⊢
    obtain ⟨s1, e1, n1, r1, f1⟩ := h1 s k hk hk32 hlo (Or.inl hfin)
    rw [e1]
    by_cases hfit : k + w1.1.length ≤ 32
    · simp only [hfit, if_true, Error.failed] at n1 ⊢
      have hmin : min (k + w1.1.length) 32 = k + w1.1.length := by omega
      rw [hmin] at n1
      obtain ⟨s2, e2, n2, r2, f2⟩ := h2 s1 (k + w1.1.length) n1 hfit (by omega)
        (by rcases hw with h | h
            · exact Or.inl h
            · exact Or.inr (by omega))
      refine ⟨s2, ?_, ?_, ?_, ?_⟩
      · rw [e2]
        simp only [Nat.add_assoc]
        rfl
      · rw [n2, Nat.add_assoc]
      · rw [r2, r1, List.take_append_eq_append_take, List.append_assoc]
        congr 3
        omega
      · intro i hi
        rw [f2 i hi, f1 i hi]
    · simp only [hfit, if_false, Error.failed] at n1 ⊢
      refine ⟨s1, ?_, ?_, ?_, f1⟩
      · have : ¬ (k + (w1.1.length + w2.1.length) ≤ 32) := by omega
        simp [this]
      · rw [n1]
        congr 1
        omega
      · rw [r1, List.take_append_of_le_length (by omega)]
  · simp only [hfin] at hw ⊢
    have hlen : 32 < k + w1.1.length := by
      rcases hw with h | h
      · exact absurd h hfin
      · exact h
    obtain ⟨s1, e1, n1, r1, f1⟩ := h1 s k hk hk32 hlo (Or.inr hlen)
    rw [e1]
    have hfit : ¬ (k + w1.1.length ≤ 32) := by omega
    simp only [hfit, if_false, Error.failed] at n1 ⊢
    refine ⟨s1, ?_, ?_, ?_, f1⟩
    · simp [hfit]
    · simpa using n1
    · simpa using r1

theorem Match2_bridge (conf : ConfigSpace) (b d f : Nat) :
    (modelClassCode conf b d f).Match2 0x06 0x04 = modelIsBridge conf b d f := by
  unfold ClassCode.Match2 ClassCode.Match modelIsBridge
  simp only [Bool.beq_comm]

theorem refines_ScanFunction {lo : Nat} {scanBus : Nat → Machine → Option (Error × Machine)}
    {dfs : Nat → Walk} (conf : ConfigSpace) (b d f : Nat)
    (hsub : ∀ b', Refines (lo + 1) (scanBus b') (dfs b')) :
    Refines lo (ScanFunction scanBus conf b d f) (dfsFunction dfs conf b d f) := by
  intro s k hk hk32 hlo hw
  unfold ScanFunction
  simp only [ReadClassCode_fst, ReadHeaderType_fst, Match2_bridge]
  have hdev : (⟨b, d, f, modelHeaderType conf b d f, modelClassCode conf b d f⟩ : Device)
      = modelDevice conf b d f := rfl
  rw [hdev]
  -- the state in which `AddDevice` runs has the registry of `s`
  generalize hs2 : (ReadHeaderType conf b d f (ReadClassCode conf b d f s).2).2 = s2
  have hd2 : s2.devices = s.devices := by rw [← hs2]; rfl
  have hn2 : s2.num_device = (k : Int) := by rw [← hs2, ← hk]; rfl
  have hr2 : registry s2 = registry s := registry_congr hd2 (by rw [hn2, hk])
  unfold AddDevice
  by_cases hfull : k = 32
  · -- registry full
    have hn32 : s2.num_device = 32 := by rw [hn2, hfull]; rfl
    have hlen : 1 ≤ (dfsFunction dfs conf b d f).1.length := by
      unfold dfsFunction; split <;> simp
    subst hfull
    have hnot : ¬ (32 + (dfsFunction dfs conf b d f).1.length ≤ 32) := by omega
    simp only [hn32, if_true, MAKE_ERROR, Error.failed, hnot, if_false]
    refine ⟨s2, rfl, ?_, ?_, ?_⟩
    · rw [hn32]; simp
    · rw [hr2]; simp
    · intro i _; rw [hd2]
  · have hne : s2.num_device ≠ 32 := by rw [hn2]; omega
    simp only [hne, if_false, MAKE_ERROR, Error.failed]
    have hr3 := registry_AddDevice (modelDevice conf b d f) s2 k hn2
    generalize hs3 : ({ s2 with devices := Function.update s2.devices s2.num_device
                                  (modelDevice conf b d f)
                                num_device := s2.num_device + 1 } : Machine) = s3 at hr3 ⊢
    have hn3 : s3.num_device = ((k + 1 : Nat) : Int) := by
      rw [← hs3]; show s2.num_device + 1 = _; rw [hn2]; push_cast; rfl
    have hf3 : ∀ i : Int, (i < 0 ∨ 32 ≤ i) → s3.devices i = s.devices i := by
      intro i hi
      rw [← hs3, ← hd2]
      show Function.update s2.devices s2.num_device (modelDevice conf b d f) i = _
      rw [Function.update_noteq]
      rw [hn2]; omega
    unfold dfsFunction at hw ⊢
    by_cases hbr : modelIsBridge conf b d f = true
    · simp only [hbr, if_true, ReadBusNumbers_secondary, Bool.false_eq_true, if_false] at hw ⊢
      simp only [List.length_cons] at hw ⊢
      generalize hs4 : (ReadBusNumbers conf b d f s3).2 = s4
      have hd4 : s4.devices = s3.devices := by rw [← hs4]; rfl
      have hn4 : s4.num_device = ((k + 1 : Nat) : Int) := by rw [← hs4, ← hn3]; rfl
      obtain ⟨s', e', n', r', f'⟩ := hsub (modelSecondaryBus conf b d f) s4 (k + 1) hn4
        (by omega) (by omega)
        (by rcases hw with h | h
            · exact Or.inl h
            · exact Or.inr (by omega))
      refine ⟨s', ?_, ?_, ?_, ?_⟩
      · rw [e']
        have : k + 1 + (dfs (modelSecondaryBus conf b d f)).1.length
            = k + ((dfs (modelSecondaryBus conf b d f)).1.length + 1) := by omega
        rw [this]
      · rw [n']; congr 1; omega
      · rw [r', registry_congr hd4 (by rw [hn4, hn3]), hr3, hr2, List.append_assoc]
        have : 32 - k = (32 - (k + 1)) + 1 := by omega
        rw [this, List.take_succ_cons]
        rfl
      · intro i hi
        rw [f' i hi, hd4, hf3 i hi]
    · have hbr' : modelIsBridge conf b d f = false := by simpa using hbr
      simp only [hbr', Bool.false_eq_true, if_false] at hw ⊢
      refine ⟨s3, ?_, ?_, ?_, hf3⟩
      · have : k + [modelDevice conf b d f].length ≤ 32 := by simp; omega
        rw [if_pos this]
      · rw [hn3]; congr 1; simp; omega
      · rw [hr3, hr2]
        have : 32 - k = (32 - (k + 1)) + 1 := by omega
        rw [this, List.take_succ_cons]
        simp

theorem Refines.congr {lo : Nat} {c c' : Machine → Option (Error × Machine)} {w : Walk}
    (h : Refines lo c w) (hc : ∀ s, c' s = c s) : Refines lo c' w := by
  intro s k hk hk32 hlo hw
  rw [hc]
  exact h s k hk hk32 hlo hw

theorem Walk.seq_done (w : Walk) : w.seq ([], true) = w := by
  unfold Walk.seq
  split
  · next h => rw [List.append_nil, ← h]
  · rfl

theorem Walk.all_nil {α : Type} (g : α → Walk) : Walk.all g [] = ([], true) := rfl

theorem Walk.all_cons {α : Type} (g : α → Walk) (x : α) (xs : List α) :
    Walk.all g (x :: xs) = (g x).seq (Walk.all g xs) := rfl

theorem ReadVendorId_absent (conf : ConfigSpace) (b d f : Nat) (s : Machine) :
    (ReadVendorId conf b d f s).1 = 0xffff ↔ modelPresent conf b d f = false := by
  rw [ReadVendorId_fst]
  unfold modelPresent
  simp

/-- The three `for` loops of the scanner have one shape: skip an absent item, run the body
on a present one and stop at its first failure. -/
theorem refines_loop {lo : Nat} (loop : List Nat → Machine → Option (Error × Machine))
    (read : Nat → Machine → Nat × Machine) (body : Nat → Machine → Option (Error × Machine))
    (present : Nat → Bool) (g : Nat → Walk)
    (hnil : ∀ s, loop [] s = some (MAKE_ERROR Error.kSuccess, s))
    (hcons : ∀ x rest s, loop (x :: rest) s
      = if (read x s).1 = 0xffff then loop rest (read x s).2
        else bindScan (body x) (loop rest) (read x s).2)
    (hread : ∀ x s, (read x s).1 = 0xffff ↔ present x = false)
    (hd : ∀ x s, (read x s).2.devices = s.devices)
    (hn : ∀ x s, (read x s).2.num_device = s.num_device)
    (hbody : ∀ x, Refines lo (body x) (g x)) :
    ∀ xs, Refines lo (loop xs) (Walk.all g (xs.filter present)) := by
  intro xs
  induction xs with
  | nil => exact (Refines.done lo).congr hnil
  | cons x rest ih =>
    by_cases hp : present x = true
    · rw [List.filter_cons_of_pos hp, Walk.all_cons]
      refine (Refines.after_read (fun s => (read x s).2) (hd x) (hn x)
        (Refines.bind (hbody x) ih)).congr ?_
      intro s
      rw [hcons, if_neg]
      rw [hread, hp]
      simp
    · rw [List.filter_cons_of_neg hp]
      refine (Refines.after_read (fun s => (read x s).2) (hd x) (hn x) ih).congr ?_
      intro s
      rw [hcons, if_pos]
      rw [hread]
      simpa using hp

theorem refines_ScanDeviceLoop {lo : Nat}
    {scanBus : Nat → Machine → Option (Error × Machine)} {dfs : Nat → Walk}
    (conf : ConfigSpace) (b d : Nat) (hsub : ∀ b', Refines (lo + 1) (scanBus b') (dfs b'))
    (fs : List Nat) :
    Refines lo (ScanDeviceLoop scanBus conf b d fs)
      (Walk.all (dfsFunction dfs conf b d) (fs.filter (fun f => modelPresent conf b d f))) :=
  refines_loop (ScanDeviceLoop scanBus conf b d) (fun f s => ReadVendorId conf b d f s)
    (fun f => ScanFunction scanBus conf b d f) (fun f => modelPresent conf b d f)
    (dfsFunction dfs conf b d) (fun _ => rfl) (fun _ _ _ => rfl)
    (fun f s => ReadVendorId_absent conf b d f s) (fun _ _ => rfl) (fun _ _ => rfl)
    (fun f => refines_ScanFunction conf b d f hsub) fs

theorem refines_ScanDevice {lo : Nat}
    {scanBus : Nat → Machine → Option (Error × Machine)} {dfs : Nat → Walk}
    (conf : ConfigSpace) (b d : Nat) (hsub : ∀ b', Refines (lo + 1) (scanBus b') (dfs b')) :
    Refines lo (ScanDevice scanBus conf b d) (dfsDevice dfs conf b d) := by
  unfold dfsDevice
  by_cases hm : modelMultiFunction conf b d = true
  · rw [if_pos hm]
    refine (Refines.bind (refines_ScanFunction conf b d 0 hsub)
      (Refines.after_read (fun s => (ReadHeaderType conf b d 0 s).2) (fun _ => rfl)
        (fun _ => rfl) (refines_ScanDeviceLoop conf b d hsub (List.range' 1 7)))).congr ?_
    intro s
    unfold ScanDevice bindScan
    cases ScanFunction scanBus conf b d 0 s with
    | none => rfl
    | some r =>
      simp only [ReadHeaderType_fst, IsSingleFunctionDevice_eq]
      unfold modelMultiFunction at hm
      have hm' : modelHeaderType conf b d 0 / 128 % 2 = 1 := by simpa using hm
      simp [hm']
  · rw [if_neg hm]
    rw [← Walk.seq_done (dfsFunction dfs conf b d 0)]
    refine (Refines.bind (refines_ScanFunction conf b d 0 hsub)
      (Refines.after_read (fun s => (ReadHeaderType conf b d 0 s).2) (fun _ => rfl)
        (fun _ => rfl) (Refines.done lo))).congr ?_
    intro s
    unfold ScanDevice bindScan
    cases ScanFunction scanBus conf b d 0 s with
    | none => rfl
    | some r =>
      simp only [ReadHeaderType_fst, IsSingleFunctionDevice_eq]
      unfold modelMultiFunction at hm
      have hm' : modelHeaderType conf b d 0 / 128 % 2 = 0 := by
        have h1 : ¬ modelHeaderType conf b d 0 / 128 % 2 = 1 := by simpa using hm
        omega
      simp [hm']

theorem refines_ScanBusLoop {lo : Nat}
    {scanBus : Nat → Machine → Option (Error × Machine)} {dfs : Nat → Walk}
    (conf : ConfigSpace) (b : Nat) (hsub : ∀ b', Refines (lo + 1) (scanBus b') (dfs b'))
    (ds : List Nat) :
    Refines lo (ScanBusLoop scanBus conf b ds)
      (Walk.all (dfsDevice dfs conf b) (ds.filter (fun d => modelPresent conf b d 0))) :=
  refines_loop (ScanBusLoop scanBus conf b) (fun d s => ReadVendorId conf b d 0 s)
    (fun d => ScanDevice scanBus conf b d) (fun d => modelPresent conf b d 0)
    (dfsDevice dfs conf b) (fun _ => rfl) (fun _ _ _ => rfl)
    (fun d s => ReadVendorId_absent conf b d 0 s) (fun _ _ => rfl) (fun _ _ => rfl)
    (fun d => refines_ScanDevice conf b d hsub) ds

theorem refines_ScanBus (conf : ConfigSpace) (depth : Nat) :
    ∀ fuel b, Refines (33 - fuel) (ScanBus conf fuel b) (dfsBus conf depth b) := by
  induction depth with
  | zero =>
    intro fuel b s k _ hk32 _ hw
    rcases hw with h | h
    · exact absurd h (by simp [dfsBus])
    · simp [dfsBus] at h
      omega
  | succ depth ih =>
    intro fuel b
    cases fuel with
    | zero =>
      intro s k _ hk32 hlo _
      omega
    | succ fuel =>
      have hsub : ∀ b', Refines (33 - (fuel + 1) + 1) (ScanBus conf fuel b')
          (dfsBus conf depth b') := fun b' => (ih fuel b').mono (by omega)
      exact refines_ScanBusLoop conf b hsub (List.range 32)

theorem refines_ScanAllBusLoop (conf : ConfigSpace) (fuel depth : Nat) (fs : List Nat) :
    Refines (33 - fuel) (ScanAllBusLoop conf fuel fs)
      (Walk.all (dfsBus conf depth) (fs.filter (fun f => modelPresent conf 0 0 f))) :=
  refines_loop (ScanAllBusLoop conf fuel) (fun f s => ReadVendorId conf 0 0 f s)
    (fun f => ScanBus conf fuel f) (fun f => modelPresent conf 0 0 f)
    (dfsBus conf depth) (fun _ => rfl) (fun _ _ _ => rfl)
    (fun f s => ReadVendorId_absent conf 0 0 f s) (fun _ _ => rfl) (fun _ _ => rfl)
    (fun f => refines_ScanBus conf depth fuel f) fs

theorem refines_dfsAll (conf : ConfigSpace) (fuel depth : Nat) :
    Refines (33 - fuel)
      (fun s => if IsSingleFunctionDevice (modelHeaderType conf 0 0 0) then ScanBus conf fuel 0 s
        else ScanAllBusLoop conf fuel (List.range' 1 7) s)
      (dfsAll conf depth) := by
  unfold dfsAll
  rw [IsSingleFunctionDevice_eq]
  unfold modelMultiFunction
  by_cases hm : (modelHeaderType conf 0 0 0 / 2 ^ 7 % 2 == 1) = true
  · simp only [hm, if_true, Bool.not_true, Bool.false_eq_true, if_false]
    exact refines_ScanAllBusLoop conf fuel depth (List.range' 1 7)
  · have hm' : (modelHeaderType conf 0 0 0 / 2 ^ 7 % 2 == 1) = false := by simpa using hm
    simp only [hm', Bool.not_false, if_true, Bool.false_eq_true, if_false]
    exact refines_ScanBus conf depth fuel 0

/-- What a scan with enough fuel does, in terms of a traversal that either ran to its end
or visited more than 32 functions. -/
theorem ScanAllBus_refines (conf : ConfigSpace) (fuel depth : Nat) (s : Machine)
    (hfuel : 33 ≤ fuel)
    (hw : (dfsAll conf depth).2 = true ∨ 32 < (dfsAll conf depth).1.length) :
    ∃ s', ScanAllBus conf fuel s
        = some (if (dfsAll conf depth).1.length ≤ 32 then Error.kSuccess else Error.kFull, s')
      ∧ s'.num_device = ((min (dfsAll conf depth).1.length 32 : Nat) : Int)
      ∧ registry s' = (dfsAll conf depth).1.take 32
      ∧ ∀ i : Int, (i < 0 ∨ 32 ≤ i) → s'.devices i = s.devices i := by
  obtain ⟨s', e, n, r, f⟩ := refines_dfsAll conf fuel depth
    (ReadHeaderType conf 0 0 0 { s with num_device := 0 }).2 0 rfl (by omega) (by omega)
    (by simpa using hw)
  refine ⟨s', ?_, ?_, ?_, ?_⟩
  · unfold ScanAllBus
    simp only [ReadHeaderType_fst]
    simp only [Nat.zero_add] at e
    rw [← e]
  · simpa using n
  · rw [r, registry_of_num_zero rfl]
    simp
  · intro i hi
    rw [f i hi]
    rfl

theorem Walk.Long.seq {m : Nat} {w1 w2 : Walk} (h1 : Walk.Long m w1) (h2 : Walk.Long m w2) :
    Walk.Long m (w1.seq w2) := by
  unfold Walk.seq
  by_cases hfin : w1.2 = true
  · rw [if_pos hfin]
    intro h
    have := h2 h
    simp only [List.length_append]
    omega
  · rw [if_neg hfin]
    exact h1

theorem Walk.Long.all {m : Nat} {g : Nat → Walk} (h : ∀ x, Walk.Long m (g x)) (xs : List Nat) :
    Walk.Long m (Walk.all g xs) := by
  induction xs with
  | nil => intro h0; simp [Walk.all] at h0
  | cons x rest ih => rw [Walk.all_cons]; exact (h x).seq ih

theorem long_dfsFunction {m : Nat} {dfs : Nat → Walk} (conf : ConfigSpace) (b d f : Nat)
    (h : ∀ b', Walk.Long m (dfs b')) : Walk.Long (m + 1) (dfsFunction dfs conf b d f) := by
  unfold dfsFunction
  split
  · intro h0
    have := h _ h0
    simp only [List.length_cons]
    omega
  · intro h0
    simp at h0

theorem long_dfsDevice {m : Nat} {dfs : Nat → Walk} (conf : ConfigSpace) (b d : Nat)
    (h : ∀ b', Walk.Long m (dfs b')) : Walk.Long (m + 1) (dfsDevice dfs conf b d) := by
  unfold dfsDevice
  split
  · exact (long_dfsFunction conf b d 0 h).seq
      (Walk.Long.all (fun f => long_dfsFunction conf b d f h) _)
  · exact long_dfsFunction conf b d 0 h

theorem long_dfsBus (conf : ConfigSpace) (depth : Nat) :
    ∀ b, Walk.Long depth (dfsBus conf depth b) := by
  induction depth with
  | zero => intro b _; exact Nat.zero_le _
  | succ depth ih =>
    intro b
    exact Walk.Long.all (fun d => long_dfsDevice conf b d ih) _

theorem long_dfsAll (conf : ConfigSpace) (depth : Nat) : Walk.Long depth (dfsAll conf depth) := by
  unfold dfsAll
  split
  · exact Walk.Long.all (long_dfsBus conf depth) _
  · exact long_dfsBus conf depth 0

/-- At depth 33 the traversal either runs to its end or visits more than 32 functions. -/
theorem dfsAll_33 (conf : ConfigSpace) :
    (dfsAll conf 33).2 = true ∨ 32 < (dfsAll conf 33).1.length := by
  by_cases h : (dfsAll conf 33).2 = true
  · exact Or.inl h
  · have := long_dfsAll conf 33 (by simpa using h)
    exact Or.inr (by omega)

/-! ## The visited functions carry what the model gives for them -/

theorem seq_forall {P : Device → Prop} {w1 w2 : Walk} (h1 : ∀ x ∈ w1.1, P x)
    (h2 : ∀ x ∈ w2.1, P x) : ∀ x ∈ (w1.seq w2).1, P x := by
  unfold Walk.seq
  split
  · intro x hx
    rcases List.mem_append.mp hx with h | h
    · exact h1 x h
    · exact h2 x h
  · exact h1

theorem all_forall {P : Device → Prop} {g : Nat → Walk} (h : ∀ y, ∀ x ∈ (g y).1, P x)
    (xs : List Nat) : ∀ x ∈ (Walk.all g xs).1, P x := by
  induction xs with
  | nil => intro x hx; simp [Walk.all] at hx
  | cons y rest ih => rw [Walk.all_cons]; exact seq_forall (h y) ih

theorem dfsFunction_forall {P : Device → Prop} {dfs : Nat → Walk} (conf : ConfigSpace)
    (b d f : Nat) (hP : P (modelDevice conf b d f)) (h : ∀ b', ∀ x ∈ (dfs b').1, P x) :
    ∀ x ∈ (dfsFunction dfs conf b d f).1, P x := by
  unfold dfsFunction
  split
  · intro x hx
    rcases List.mem_cons.mp hx with h0 | h0
    · rw [h0]; exact hP
    · exact h _ x h0
  · intro x hx
    rw [List.mem_singleton.mp hx]; exact hP

theorem dfsDevice_forall {P : Device → Prop} {dfs : Nat → Walk} (conf : ConfigSpace)
    (b d : Nat) (hP : ∀ f, P (modelDevice conf b d f)) (h : ∀ b', ∀ x ∈ (dfs b').1, P x) :
    ∀ x ∈ (dfsDevice dfs conf b d).1, P x := by
  unfold dfsDevice
  split
  · exact seq_forall (dfsFunction_forall conf b d 0 (hP 0) h)
      (all_forall (fun f => dfsFunction_forall conf b d f (hP f) h) _)
  · exact dfsFunction_forall conf b d 0 (hP 0) h

theorem dfsBus_forall {P : Device → Prop} (conf : ConfigSpace)
    (hP : ∀ b d f, P (modelDevice conf b d f)) (depth : Nat) :
    ∀ b, ∀ x ∈ (dfsBus conf depth b).1, P x := by
  induction depth with
  | zero => intro b x hx; simp [dfsBus] at hx
  | succ depth ih =>
    intro b
    exact all_forall (fun d => dfsDevice_forall conf b d (hP b d) ih) _

theorem dfsAll_forall {P : Device → Prop} (conf : ConfigSpace)
    (hP : ∀ b d f, P (modelDevice conf b d f)) (depth : Nat) :
    ∀ x ∈ (dfsAll conf depth).1, P x := by
  unfold dfsAll
  split
  · exact all_forall (dfsBus_forall conf hP depth) _
  · exact dfsBus_forall conf hP depth 0

/-! ## The claims about the scanner -/

/-- C2: for every configuration-space model whose depth-first traversal runs to its end
and visits at most 32 functions, `ScanAllBus` (given fuel for 33 nested bus scans) returns
`kSuccess`, leaves `num_device` equal to the number of visited functions and
`devices[0 .. num_device)` equal to the visited functions in traversal order, each entry
carrying its (bus, device, function) triple with the header type and the class code the
model gives for that triple. -/
theorem ScanAllBus_discovers (conf : ConfigSpace) (fuel depth : Nat) (s : Machine)
    (hfuel : 33 ≤ fuel) (hend : (dfsAll conf depth).2 = true)
    (hcap : (dfsAll conf depth).1.length ≤ 32) :
    ∃ s', ScanAllBus conf fuel s = some (Error.kSuccess, s')
      ∧ s'.num_device = ((dfsAll conf depth).1.length : Int)
      ∧ registry s' = (dfsAll conf depth).1
      ∧ ∀ x ∈ registry s', x = modelDevice conf x.bus x.device x.function := by
  obtain ⟨s', e, n, r, _⟩ := ScanAllBus_refines conf fuel depth s hfuel (Or.inl hend)
  rw [if_pos hcap] at e
  rw [Nat.min_eq_left hcap] at n
  rw [List.take_of_length_le hcap] at r
  refine ⟨s', e, n, r, ?_⟩
  rw [r]
  exact dfsAll_forall (P := fun x => x = modelDevice conf x.bus x.device x.function) conf
    (fun _ _ _ => rfl) depth

/-- C3: for every configuration-space model whose depth-first traversal visits more than
32 functions, `ScanAllBus` returns `kFull`, leaves `num_device = 32` and leaves
`devices[0 .. 32)` equal to the first 32 functions of the traversal, in order: the entries
added before the failure are kept. -/
theorem ScanAllBus_full (conf : ConfigSpace) (fuel depth : Nat) (s : Machine)
    (hfuel : 33 ≤ fuel) (hover : 32 < (dfsAll conf depth).1.length) :
    ∃ s', ScanAllBus conf fuel s = some (Error.kFull, s')
      ∧ s'.num_device = 32
      ∧ registry s' = (dfsAll conf depth).1.take 32 := by
  obtain ⟨s', e, n, r, _⟩ := ScanAllBus_refines conf fuel depth s hfuel (Or.inr hover)
  rw [if_neg (by omega)] at e
  rw [Nat.min_eq_right (by omega)] at n
  exact ⟨s', e, n, r⟩

/-- C4: `AddDevice` on a registry with `num_device < 32` returns `kSuccess`, stores the
device at `devices[num_device]`, increments `num_device` by one and leaves every other
entry, in particular every entry below the old `num_device`, unchanged; on a registry with
`num_device = 32` it returns `kFull` and leaves `num_device` and `devices` unchanged. -/
theorem AddDevice_spec (device : Device) (s : Machine) :
    (s.num_device < 32 →
        (AddDevice device s).1 = Error.kSuccess
      ∧ (AddDevice device s).2.devices s.num_device = device
      ∧ (AddDevice device s).2.num_device = s.num_device + 1
      ∧ (∀ i, i < s.num_device → (AddDevice device s).2.devices i = s.devices i)
      ∧ (∀ i, i ≠ s.num_device → (AddDevice device s).2.devices i = s.devices i))
    ∧ (s.num_device = 32 →
        (AddDevice device s).1 = Error.kFull
      ∧ (AddDevice device s).2.num_device = s.num_device
      ∧ (AddDevice device s).2.devices = s.devices) := by
  constructor
  · intro h
    have hne : s.num_device ≠ 32 := by omega
    unfold AddDevice
    rw [if_neg hne]
    refine ⟨rfl, ?_, rfl, ?_, ?_⟩
    · exact Function.update_same _ _ _
    · intro i hi
      exact Function.update_noteq (by omega) _ _
    · intro i hi
      exact Function.update_noteq hi _ _
  · intro h
    unfold AddDevice
    rw [if_pos h]
    exact ⟨rfl, rfl, rfl⟩

/-- C5: after `ScanAllBus`, for every configuration-space model and every prior state,
`0 ≤ num_device ≤ 32`, and no cell outside `devices[0 .. 32)` was written; and every
`AddDevice` call from a state with `0 ≤ num_device ≤ 32` ends in such a state and writes
no cell outside `devices[0 .. 32)`. -/
theorem num_device_invariant (conf : ConfigSpace) (fuel : Nat) (device : Device)
    (s : Machine) :
    (33 ≤ fuel → ∃ e s', ScanAllBus conf fuel s = some (e, s')
        ∧ 0 ≤ s'.num_device ∧ s'.num_device ≤ 32
        ∧ ∀ i : Int, (i < 0 ∨ 32 ≤ i) → s'.devices i = s.devices i)
    ∧ (0 ≤ s.num_device → s.num_device ≤ 32 →
        0 ≤ (AddDevice device s).2.num_device ∧ (AddDevice device s).2.num_device ≤ 32
        ∧ ∀ i : Int, (i < 0 ∨ 32 ≤ i) → (AddDevice device s).2.devices i = s.devices i) := by
  constructor
  · intro hfuel
    obtain ⟨s', e, n, _, f⟩ := ScanAllBus_refines conf fuel 33 s hfuel (dfsAll_33 conf)
    refine ⟨_, s', e, ?_, ?_, f⟩
    · rw [n]; exact Int.ofNat_nonneg _
    · rw [n]
      have : min (dfsAll conf 33).1.length 32 ≤ 32 := Nat.min_le_right _ _
      exact_mod_cast this
  · intro h0 h32
    unfold AddDevice
    by_cases hfull : s.num_device = 32
    · rw [if_pos hfull]
      exact ⟨h0, h32, fun _ _ => rfl⟩
    · rw [if_neg hfull]
      refine ⟨?_, ?_, ?_⟩
      · show 0 ≤ s.num_device + 1
        omega
      · show s.num_device + 1 ≤ 32
        omega
      · intro i hi
        exact Function.update_noteq (by omega) _ _

/-- C6: running `ScanAllBus` twice in succession over an unchanged model, from any initial
state, gives the same result kind, the same `num_device` and the same entries
`devices[0 .. num_device)` after the second run as after the first; the second run does
not add its devices to those of the first, because `ScanAllBus` starts from
`num_device = 0` whatever the state it is called in. -/
theorem ScanAllBus_idempotent (conf : ConfigSpace) (fuel1 fuel2 : Nat) (s : Machine)
    (h1 : 33 ≤ fuel1) (h2 : 33 ≤ fuel2) :
    ∃ e s1 s2, ScanAllBus conf fuel1 s = some (e, s1)
      ∧ ScanAllBus conf fuel2 s1 = some (e, s2)
      ∧ s2.num_device = s1.num_device
      ∧ registry s2 = registry s1
      ∧ (s1.num_device ≠ 0 → s2.num_device ≠ s1.num_device + s1.num_device)
      ∧ ScanAllBus conf fuel2 s1 = ScanAllBus conf fuel2 { s1 with num_device := 0 } := by
  obtain ⟨s1, e1, n1, r1, _⟩ := ScanAllBus_refines conf fuel1 33 s h1 (dfsAll_33 conf)
  obtain ⟨s2, e2, n2, r2, _⟩ := ScanAllBus_refines conf fuel2 33 s1 h2 (dfsAll_33 conf)
  refine ⟨_, s1, s2, e1, e2, ?_, ?_, ?_, rfl⟩
  · rw [n1, n2]
  · rw [r1, r2]
  · intro hne
    rw [n2]
    rw [n1] at hne ⊢
    omega

theorem dfsFunction_bridge {dfs : Nat → Walk} (conf : ConfigSpace) (b d f : Nat)
    (hbr : modelIsBridge conf b d f = true) :
    dfsFunction dfs conf b d f
      = (modelDevice conf b d f :: (dfs (modelSecondaryBus conf b d f)).1,
         (dfs (modelSecondaryBus conf b d f)).2) := by
  unfold dfsFunction
  rw [if_pos hbr]

set_option maxRecDepth 100000 in
theorem dfsAll_bridgeModel :
    dfsAll bridgeModel 2
      = ([{ bus := 0, device := 3, function := 0, header_type := 0x01,
            class_code := { base := 0x06, sub := 0x04, interface := 0x00 } },
          { bus := 1, device := 0, function := 0, header_type := 0x00,
            class_code := { base := 0x0c, sub := 0x03, interface := 0x30 } }], true) := by
  decide

/-- C7: traversal is pre-order. When `ScanFunction` adds a function of class base 0x06 /
sub 0x04 (there is room for it and fuel for the nested scans), the registry it leaves is
the old registry, then the bridge's own entry, then the functions found on its secondary
bus, as far as the capacity of 32 allows; so they come before anything a later sibling
adds. For the model with a single-function absent root, a bridge at (0, 3, 0) with
secondary bus 1 and one ordinary device at (1, 0, 0), `ScanAllBus` returns `kSuccess` with
the device list [(0, 3, 0), (1, 0, 0)], in that order. -/
theorem ScanFunction_preorder (conf : ConfigSpace) (fuel depth b d f k : Nat) (s : Machine)
    (hk : s.num_device = (k : Int)) (hroom : k < 32) (hfuel : 32 ≤ fuel + k)
    (hbr : modelIsBridge conf b d f = true)
    (hsub : (dfsBus conf depth (modelSecondaryBus conf b d f)).2 = true
      ∨ 32 < k + 1 + (dfsBus conf depth (modelSecondaryBus conf b d f)).1.length) :
    (∃ e s', ScanFunction (ScanBus conf fuel) conf b d f s = some (e, s')
        ∧ registry s' = registry s ++ modelDevice conf b d f
            :: (dfsBus conf depth (modelSecondaryBus conf b d f)).1.take (31 - k))
    ∧ (∀ fuel0 s0, 33 ≤ fuel0 → ∃ s', ScanAllBus bridgeModel fuel0 s0 = some (Error.kSuccess, s')
        ∧ s'.num_device = 2
        ∧ registry s'
          = [{ bus := 0, device := 3, function := 0, header_type := 0x01,
               class_code := { base := 0x06, sub := 0x04, interface := 0x00 } },
             { bus := 1, device := 0, function := 0, header_type := 0x00,
               class_code := { base := 0x0c, sub := 0x03, interface := 0x30 } }]) := by
  constructor
  · have href := @refines_ScanFunction (32 - fuel) (ScanBus conf fuel) (dfsBus conf depth)
      conf b d f (fun b' => (refines_ScanBus conf depth fuel b').mono (by omega))
    obtain ⟨s', e, _, r, _⟩ := href s k hk (by omega) (by omega)
      (by rw [dfsFunction_bridge conf b d f hbr]
          rcases hsub with h | h
          · exact Or.inl h
          · exact Or.inr (by simp only [List.length_cons]; omega))
    refine ⟨_, s', e, ?_⟩
    rw [r, dfsFunction_bridge conf b d f hbr]
    have h32 : 32 - k = (31 - k) + 1 := by omega
    rw [h32, List.take_succ_cons]
  · intro fuel0 s0 hfuel0
    obtain ⟨s', e, n, r, _⟩ := ScanAllBus_refines bridgeModel fuel0 2 s0 hfuel0
      (by rw [dfsAll_bridgeModel]; exact Or.inl rfl)
    rw [dfsAll_bridgeModel] at e n r
    exact ⟨s', e, n, r⟩

/-- Witness of C2: the bridge model, whose traversal visits two functions. -/
theorem ScanAllBus_discovers_witness :
    (dfsAll bridgeModel 2).2 = true ∧ (dfsAll bridgeModel 2).1.length ≤ 32
      ∧ ∃ s', ScanAllBus bridgeModel 33 Machine.initial = some (Error.kSuccess, s')
        ∧ s'.num_device = ((dfsAll bridgeModel 2).1.length : Int)
        ∧ registry s' = (dfsAll bridgeModel 2).1
        ∧ ∀ x ∈ registry s', x = modelDevice bridgeModel x.bus x.device x.function :=
  ⟨by rw [dfsAll_bridgeModel], by rw [dfsAll_bridgeModel]; decide,
    ScanAllBus_discovers bridgeModel 33 2 Machine.initial (by decide)
      (by rw [dfsAll_bridgeModel]) (by rw [dfsAll_bridgeModel]; decide)⟩

set_option maxRecDepth 100000 in
theorem dfsAll_fortyModel_length : (dfsAll fortyModel 1).1.length = 40 := by decide

/-- Witness of C3: the model with 40 functions. -/
theorem ScanAllBus_full_witness :
    (dfsAll fortyModel 1).1.length = 40
      ∧ ∃ s', ScanAllBus fortyModel 33 Machine.initial = some (Error.kFull, s')
        ∧ s'.num_device = 32
        ∧ registry s' = (dfsAll fortyModel 1).1.take 32 :=
  ⟨dfsAll_fortyModel_length,
    ScanAllBus_full fortyModel 33 1 Machine.initial (by decide)
      (by rw [dfsAll_fortyModel_length]; decide)⟩

/-- Witness of C4: an empty registry and a full one. -/
theorem AddDevice_spec_witness :
    ((AddDevice Device.zero Machine.initial).1 = Error.kSuccess
      ∧ (AddDevice Device.zero Machine.initial).2.num_device = 1)
    ∧ ((AddDevice Device.zero Machine.full).1 = Error.kFull
      ∧ (AddDevice Device.zero Machine.full).2.num_device = 32) :=
  have h0 := (AddDevice_spec Device.zero Machine.initial).1 (by decide)
  have h32 := (AddDevice_spec Device.zero Machine.full).2 rfl
  ⟨⟨h0.1, h0.2.2.1⟩, ⟨h32.1, h32.2.1⟩⟩

/-- Witness of C5: a scan of the cyclic model, and an `AddDevice` on an empty registry. -/
theorem num_device_invariant_witness :
    (∃ e s', ScanAllBus cyclicModel 33 Machine.initial = some (e, s')
        ∧ 0 ≤ s'.num_device ∧ s'.num_device ≤ 32
        ∧ ∀ i : Int, (i < 0 ∨ 32 ≤ i) → s'.devices i = Machine.initial.devices i)
    ∧ (0 ≤ (AddDevice Device.zero Machine.initial).2.num_device
        ∧ (AddDevice Device.zero Machine.initial).2.num_device ≤ 32) :=
  have h := num_device_invariant cyclicModel 33 Device.zero Machine.initial
  have h2 := h.2 (by decide) (by decide)
  ⟨h.1 (by decide), h2.1, h2.2.1⟩

/-- Witness of C6: two scans of the bridge model. -/
theorem ScanAllBus_idempotent_witness :
    ∃ e s1 s2, ScanAllBus bridgeModel 33 Machine.full = some (e, s1)
      ∧ ScanAllBus bridgeModel 34 s1 = some (e, s2)
      ∧ s2.num_device = s1.num_device
      ∧ registry s2 = registry s1
      ∧ (s1.num_device ≠ 0 → s2.num_device ≠ s1.num_device + s1.num_device)
      ∧ ScanAllBus bridgeModel 34 s1 = ScanAllBus bridgeModel 34 { s1 with num_device := 0 } :=
  ScanAllBus_idempotent bridgeModel 33 34 Machine.full (by decide) (by decide)

set_option maxRecDepth 100000 in
/-- Witness of C7: the bridge (0, 3, 0) of the bridge model, scanned into an empty
registry. -/
theorem ScanFunction_preorder_witness :
    modelIsBridge bridgeModel 0 3 0 = true
      ∧ ∃ e s', ScanFunction (ScanBus bridgeModel 33) bridgeModel 0 3 0 Machine.initial
          = some (e, s')
        ∧ registry s' = registry Machine.initial ++ modelDevice bridgeModel 0 3 0
            :: (dfsBus bridgeModel 1 (modelSecondaryBus bridgeModel 0 3 0)).1.take (31 - 0) :=
  ⟨by decide,
    (ScanFunction_preorder bridgeModel 33 1 0 3 0 0 Machine.initial rfl (by decide)
      (by decide) (by decide) (Or.inl (by decide))).1⟩

/-! ## The claims about the BAR decoder -/

theorem and_four_eq_zero_iff (x : Nat) : x &&& 4 = 0 ↔ x / 2 ^ 2 % 2 = 0 := by
  have e : x &&& 4 = (x.testBit 2).toNat * 2 ^ 2 := Nat.and_two_pow x 2
  rw [e, Nat.testBit_to_div_mod]
  rcases Nat.mod_two_eq_zero_or_one (x / 2 ^ 2) with h | h
  · simp [h]
  · simp [h]

theorem CalcBarAddress_eq (i : Nat) (h : i < 6) : CalcBarAddress i = 0x10 + 4 * i := by
  unfold CalcBarAddress
  omega

theorem ReadConfReg_fst (conf : ConfigSpace) (dev : Device) (r : Nat) (s : Machine) :
    (ReadConfReg conf dev r s).1 = conf (MakeAddress dev.bus dev.device dev.function r) % 2 ^ 32 :=
  ReadData_WriteAddress_fst conf _ s

theorem ReadConfReg_trace (conf : ConfigSpace) (dev : Device) (r : Nat) (s : Machine) :
    (ReadConfReg conf dev r s).2.trace
      = s.trace ++ [PortOp.out32 kConfigAddress (MakeAddress dev.bus dev.device dev.function r),
          PortOp.in32 kConfigData] := by
  simp [ReadConfReg, ReadData, WriteAddress, IoIn32, IoOut32]

theorem ReadBar_low (conf : ConfigSpace) (device : Device) (i : Nat) (s : Machine)
    (hi : i < 6) (hbit : barRegister conf device i / 2 ^ 2 % 2 = 0) :
    ReadBar conf device i s
      = ((barRegister conf device i, Error.kSuccess), (ReadConfReg conf device (0x10 + 4 * i) s).2)
    := by
  unfold ReadBar
  rw [if_neg (by omega), CalcBarAddress_eq i hi]
  simp only [ReadConfReg_fst]
  unfold barRegister at hbit ⊢
  rw [if_pos ((and_four_eq_zero_iff _).mpr hbit)]
  rfl

theorem ReadBar_last (conf : ConfigSpace) (device : Device) (s : Machine)
    (hbit : barRegister conf device 5 / 2 ^ 2 % 2 = 1) :
    ReadBar conf device 5 s
      = ((0, Error.kIndexOutOfRange), (ReadConfReg conf device 0x24 s).2) := by
  unfold ReadBar
  rw [if_neg (by omega), CalcBarAddress_eq 5 (by omega)]
  simp only [ReadConfReg_fst]
  have hne : ¬ (conf (MakeAddress device.bus device.device device.function (0x10 + 4 * 5))
      % 2 ^ 32 &&& 4 = 0) := by
    rw [and_four_eq_zero_iff]
    unfold barRegister at hbit
    omega
  rw [if_neg hne, if_pos (by omega)]
  rfl

theorem ReadBar_pair (conf : ConfigSpace) (device : Device) (i : Nat) (s : Machine)
    (hi : i < 5) (hbit : barRegister conf device i / 2 ^ 2 % 2 = 1) :
    ReadBar conf device i s
      = ((barRegister conf device i ||| (barRegister conf device (i + 1) <<< 32),
          Error.kSuccess),
         (ReadConfReg conf device (0x10 + 4 * (i + 1))
           (ReadConfReg conf device (0x10 + 4 * i) s).2).2) := by
  unfold ReadBar
  rw [if_neg (by omega), CalcBarAddress_eq i (by omega)]
  simp only [ReadConfReg_fst]
  have hne : ¬ (conf (MakeAddress device.bus device.device device.function (0x10 + 4 * i))
      % 2 ^ 32 &&& 4 = 0) := by
    rw [and_four_eq_zero_iff]
    unfold barRegister at hbit
    omega
  rw [if_neg hne, if_neg (by omega)]
  have hoff : (0x10 + 4 * i + 4) % 2 ^ 8 = 0x10 + 4 * (i + 1) := by omega
  rw [hoff]
  have hup : (conf (MakeAddress device.bus device.device device.function (0x10 + 4 * (i + 1)))
      % 2 ^ 32) <<< 32 % 2 ^ 64
      = (conf (MakeAddress device.bus device.device device.function (0x10 + 4 * (i + 1)))
      % 2 ^ 32) <<< 32 := by
    rw [Nat.shiftLeft_eq]
    apply Nat.mod_eq_of_lt
    have := Nat.mod_lt (conf (MakeAddress device.bus device.device device.function
      (0x10 + 4 * (i + 1)))) (show 0 < 2 ^ 32 by norm_num)
    omega
  rw [hup]
  rfl

theorem or_shift_eq_add (lo hi : Nat) (h : lo < 2 ^ 32) : lo ||| (hi <<< 32) = lo + hi * 2 ^ 32 := by
  rw [Nat.shiftLeft_eq, Nat.or_comm, Nat.mul_comm, ← Nat.mul_add_lt_is_or h]
  omega

/-- C8: for every device and every `bar_index`, `ReadBar` returns `kIndexOutOfRange`
exactly when `bar_index ≥ 6`, or `bar_index = 5` and bit 2 of the register at offset 0x24
is set; in these cases the value returned is 0, and in every other case the result is
`kSuccess`. -/
theorem ReadBar_out_of_range_iff (conf : ConfigSpace) (device : Device) (bar_index : Nat)
    (s : Machine) :
    ((ReadBar conf device bar_index s).1.2 = Error.kIndexOutOfRange
        ↔ (6 ≤ bar_index ∨ (bar_index = 5
            ∧ conf (MakeAddress device.bus device.device device.function 0x24) % 2 ^ 32
                / 2 ^ 2 % 2 = 1)))
    ∧ ((ReadBar conf device bar_index s).1.2 = Error.kIndexOutOfRange
        → (ReadBar conf device bar_index s).1.1 = 0)
    ∧ ((ReadBar conf device bar_index s).1.2 ≠ Error.kIndexOutOfRange
        → (ReadBar conf device bar_index s).1.2 = Error.kSuccess) := by
  by_cases h6 : 6 ≤ bar_index
  · have e : ReadBar conf device bar_index s = ((0, Error.kIndexOutOfRange), s) := by
      unfold ReadBar
      rw [if_pos h6]
      rfl
    rw [e]
    exact ⟨⟨fun _ => Or.inl h6, fun _ => rfl⟩, fun _ => rfl, fun h => absurd rfl h⟩
  · have hi : bar_index < 6 := by omega
    have h24 : conf (MakeAddress device.bus device.device device.function 0x24) % 2 ^ 32
        = barRegister conf device 5 := rfl
    rw [h24]
    rcases Nat.mod_two_eq_zero_or_one (barRegister conf device bar_index / 2 ^ 2) with hb | hb
    · rw [ReadBar_low conf device bar_index s hi hb]
      refine ⟨⟨fun h => (by cases h), ?_⟩, fun h => (by cases h), fun _ => rfl⟩
      rintro (h | ⟨h5, hbit⟩)
      · omega
      · subst h5
        omega
    · by_cases h5 : bar_index = 5
      · subst h5
        rw [ReadBar_last conf device s hb]
        exact ⟨⟨fun _ => Or.inr ⟨rfl, hb⟩, fun _ => rfl⟩, fun _ => rfl, fun h => absurd rfl h⟩
      · rw [ReadBar_pair conf device bar_index s (by omega) hb]
        refine ⟨⟨fun h => (by cases h), ?_⟩, fun h => (by cases h), fun _ => rfl⟩
        rintro (h | ⟨h5', _⟩)
        · omega
        · exact absurd h5' h5

set_option maxRecDepth 100000 in
/-- Witness of C8: index 5 of a device whose BAR5 has bit 2 set, and index 6. -/
theorem ReadBar_out_of_range_iff_witness :
    (ReadBar bar32Model Device.zero 5 Machine.initial).1 = (0, Error.kIndexOutOfRange)
      ∧ (ReadBar bar32Model Device.zero 6 Machine.initial).1.2 = Error.kIndexOutOfRange :=
  have h5 := ReadBar_out_of_range_iff bar32Model Device.zero 5 Machine.initial
  have h6 := ReadBar_out_of_range_iff bar32Model Device.zero 6 Machine.initial
  have e5 := h5.1.mpr (Or.inr ⟨rfl, by decide⟩)
  ⟨Prod.ext (h5.2.1 e5) e5, h6.1.mpr (Or.inl (by decide))⟩

/-- C9: for every device and `bar_index < 5` for which bit 2 of the register at offset
0x10 + 4·bar_index is set, `ReadBar` returns `kSuccess` with the 64-bit value whose low 32
bits are that register and whose high 32 bits are the register at offset
0x10 + 4·(bar_index + 1), that is `lower32 | (upper32 << 32)`, no bit masked; BAR0 =
0xE0000004 and BAR1 = 0x00000002 give 0x2E0000004. -/
theorem ReadBar_64bit (conf : ConfigSpace) (device : Device) (bar_index : Nat) (s : Machine)
    (hi : bar_index < 5) (hbit : barRegister conf device bar_index / 2 ^ 2 % 2 = 1) :
    (ReadBar conf device bar_index s).1.2 = Error.kSuccess
      ∧ (ReadBar conf device bar_index s).1.1
          = (barRegister conf device bar_index
              ||| (barRegister conf device (bar_index + 1) <<< 32))
      ∧ (ReadBar conf device bar_index s).1.1
          = barRegister conf device bar_index
              + barRegister conf device (bar_index + 1) * 2 ^ 32
      ∧ (ReadBar conf device bar_index s).1.1 % 2 ^ 32 = barRegister conf device bar_index
      ∧ (ReadBar conf device bar_index s).1.1 / 2 ^ 32
          = barRegister conf device (bar_index + 1)
      ∧ (ReadBar conf device bar_index s).1.1 < 2 ^ 64
      ∧ (bar_index = 0 → barRegister conf device 0 = 0xE0000004
          → barRegister conf device 1 = 0x00000002
          → (ReadBar conf device bar_index s).1.1 = 0x2E0000004) := by
  have hlo : barRegister conf device bar_index < 2 ^ 32 :=
    Nat.mod_lt _ (by norm_num)
  have hhi : barRegister conf device (bar_index + 1) < 2 ^ 32 :=
    Nat.mod_lt _ (by norm_num)
  have hsum := or_shift_eq_add (barRegister conf device bar_index)
    (barRegister conf device (bar_index + 1)) hlo
  rw [ReadBar_pair conf device bar_index s hi hbit]
  refine ⟨rfl, rfl, hsum, ?_, ?_, ?_, ?_⟩
  · show (_ ||| _) % 2 ^ 32 = _
    rw [hsum]; omega
  · show (_ ||| _) / 2 ^ 32 = _
    rw [hsum]; omega
  · show (_ ||| _) < 2 ^ 64
    rw [hsum]; omega
  · intro h0 hb0 hb1
    subst h0
    show (_ ||| _) = _
    rw [hsum, hb0, hb1]
    norm_num

set_option maxRecDepth 100000 in
/-- Witness of C9: BAR0 = 0xE0000004 and BAR1 = 0x00000002. -/
theorem ReadBar_64bit_witness :
    (ReadBar bar64Model Device.zero 0 Machine.initial).1.2 = Error.kSuccess
      ∧ (ReadBar bar64Model Device.zero 0 Machine.initial).1.1 = 0x2E0000004 :=
  have h := ReadBar_64bit bar64Model Device.zero 0 Machine.initial (by decide) (by decide)
  ⟨h.1, h.2.2.2.2.2.2 rfl (by decide) (by decide)⟩

/-- C10: for every device and `bar_index < 6` for which bit 2 of the register at offset
0x10 + 4·bar_index is clear, `ReadBar` returns `kSuccess` with the raw 32-bit register
value, zero-extended and with its low flag bits (bits 3-0) as they are, and it makes one
address write and one data read only: the register at `bar_index + 1` is not read. -/
theorem ReadBar_32bit (conf : ConfigSpace) (device : Device) (bar_index : Nat) (s : Machine)
    (hi : bar_index < 6) (hbit : barRegister conf device bar_index / 2 ^ 2 % 2 = 0) :
    (ReadBar conf device bar_index s).1.2 = Error.kSuccess
      ∧ (ReadBar conf device bar_index s).1.1 = barRegister conf device bar_index
      ∧ (ReadBar conf device bar_index s).1.1 < 2 ^ 32
      ∧ (ReadBar conf device bar_index s).1.1 % 2 ^ 4 = barRegister conf device bar_index % 2 ^ 4
      ∧ (ReadBar conf device bar_index s).2.trace
          = s.trace ++ [PortOp.out32 kConfigAddress
              (MakeAddress device.bus device.device device.function (0x10 + 4 * bar_index)),
            PortOp.in32 kConfigData] := by
  rw [ReadBar_low conf device bar_index s hi hbit]
  exact ⟨rfl, rfl, Nat.mod_lt _ (by norm_num), rfl, ReadConfReg_trace conf device _ s⟩

set_option maxRecDepth 100000 in
/-- Witness of C10: BAR0 = 0xF0000008, whose bit 3 stays in the result. -/
theorem ReadBar_32bit_witness :
    (ReadBar bar32Model Device.zero 0 Machine.initial).1.2 = Error.kSuccess
      ∧ (ReadBar bar32Model Device.zero 0 Machine.initial).1.1 = 0xF0000008
      ∧ (ReadBar bar32Model Device.zero 0 Machine.initial).2.trace
          = [PortOp.out32 kConfigAddress 0x80000010, PortOp.in32 kConfigData] :=
  have h := ReadBar_32bit bar32Model Device.zero 0 Machine.initial (by decide) (by decide)
  ⟨h.1, h.2.1.trans (by decide), h.2.2.2.2.trans (by decide)⟩

/-! ## The claims about the accessors, the class code and the encoding -/

set_option maxRecDepth 100000 in
/-- C11, as stated, fails: with BAR0 = 0xF0000004 and BAR1 = 0x00000002 the call
`ReadBar(device, 0)` does not return the value 0xF0000004; bit 2 of 0xF0000004 is set, so
the register at index 1 is read and becomes the high half of the result. -/
theorem ReadBar_F4_not_standalone :
    ¬ (∀ (conf : ConfigSpace) (device : Device) (s : Machine),
        barRegister conf device 0 = 0xF0000004 →
        (ReadBar conf device 0 s).1 = (0xF0000004, Error.kSuccess)) := by
  intro h
  have h1 := h barF4Model Device.zero Machine.initial (by decide)
  revert h1
  decide

/-- C11, amended: `ReadBar(device, 0)` on a device whose BAR0 reads 0xF0000004 returns
`kSuccess` with the value 0xF0000004 + BAR1 · 2^32, BAR0 being the low half of a 64-bit
pair with the register at index 1; the value is 0xF0000004 exactly when the register at
index 1 reads 0. -/
theorem ReadBar_F4 (conf : ConfigSpace) (device : Device) (s : Machine)
    (h0 : barRegister conf device 0 = 0xF0000004) :
    (ReadBar conf device 0 s).1
        = (0xF0000004 + barRegister conf device 1 * 2 ^ 32, Error.kSuccess)
      ∧ ((ReadBar conf device 0 s).1.1 = 0xF0000004 ↔ barRegister conf device 1 = 0)
      ∧ (ReadBar conf device 0 s).2.trace
          = s.trace ++ [PortOp.out32 kConfigAddress
              (MakeAddress device.bus device.device device.function 0x10),
            PortOp.in32 kConfigData,
            PortOp.out32 kConfigAddress
              (MakeAddress device.bus device.device device.function 0x14),
            PortOp.in32 kConfigData] := by
  have hbit : barRegister conf device 0 / 2 ^ 2 % 2 = 1 := by rw [h0]; norm_num
  have hsum := or_shift_eq_add (barRegister conf device 0) (barRegister conf device (0 + 1))
    (Nat.mod_lt _ (by norm_num))
  rw [ReadBar_pair conf device 0 s (by omega) hbit]
  refine ⟨?_, ?_, ?_⟩
  · show (_ ||| _, _) = _
    rw [hsum, h0]
  · show (_ ||| _) = _ ↔ _
    rw [hsum, h0]
    constructor
    · intro h; simp only [Nat.zero_add] at h ⊢; omega
    · intro h; simp only [Nat.zero_add] at h ⊢; rw [h]; norm_num
  · rw [ReadConfReg_trace, ReadConfReg_trace]
    simp

set_option maxRecDepth 100000 in
/-- Witness of the amended C11: BAR0 = 0xF0000004 and BAR1 = 0x00000002 give
0x2F0000004. -/
theorem ReadBar_F4_witness :
    (ReadBar barF4Model Device.zero 0 Machine.initial).1 = (0x2F0000004, Error.kSuccess) :=
  (ReadBar_F4 barF4Model Device.zero Machine.initial (by decide)).1.trans (by decide)

theorem read_trace (conf : ConfigSpace) (a : Nat) (s : Machine) :
    (ReadData conf (WriteAddress a s)).2.trace
      = s.trace ++ [PortOp.out32 kConfigAddress a, PortOp.in32 kConfigData] := by
  simp [ReadData, WriteAddress, IoIn32, IoOut32]

/-- C12: each accessor writes exactly one address, `MakeAddress bus device function off`,
and reads the data port exactly once; `ReadVendorId` returns bits 15-0 of the register at
offset 0x00, `ReadDeviceId` bits 31-16 of the register at 0x00, `ReadHeaderType` bits 23-16
of the register at 0x0C, `ReadClassCode` bits 31-24, 23-16 and 15-8 of the register at
0x08, `ReadBusNumbers` the whole register at 0x18; and the device id shifted left by 16,
or-ed with the vendor id, is the register at 0x00. -/
theorem accessors_spec (conf : ConfigSpace) (bus device function : Nat) (s : Machine) :
    ((ReadVendorId conf bus device function s).1
        = conf (MakeAddress bus device function 0x00) % 2 ^ 32 % 2 ^ 16
      ∧ (ReadVendorId conf bus device function s).2.trace
        = s.trace ++ [PortOp.out32 kConfigAddress (MakeAddress bus device function 0x00),
            PortOp.in32 kConfigData])
    ∧ ((ReadDeviceId conf bus device function s).1
        = conf (MakeAddress bus device function 0x00) % 2 ^ 32 / 2 ^ 16
      ∧ (ReadDeviceId conf bus device function s).2.trace
        = s.trace ++ [PortOp.out32 kConfigAddress (MakeAddress bus device function 0x00),
            PortOp.in32 kConfigData])
    ∧ ((ReadHeaderType conf bus device function s).1
        = conf (MakeAddress bus device function 0x0c) % 2 ^ 32 / 2 ^ 16 % 2 ^ 8
      ∧ (ReadHeaderType conf bus device function s).2.trace
        = s.trace ++ [PortOp.out32 kConfigAddress (MakeAddress bus device function 0x0c),
            PortOp.in32 kConfigData])
    ∧ ((ReadClassCode conf bus device function s).1
        = { base := conf (MakeAddress bus device function 0x08) % 2 ^ 32 / 2 ^ 24
            sub := conf (MakeAddress bus device function 0x08) % 2 ^ 32 / 2 ^ 16 % 2 ^ 8
            interface := conf (MakeAddress bus device function 0x08) % 2 ^ 32 / 2 ^ 8 % 2 ^ 8 }
      ∧ (ReadClassCode conf bus device function s).2.trace
        = s.trace ++ [PortOp.out32 kConfigAddress (MakeAddress bus device function 0x08),
            PortOp.in32 kConfigData])
    ∧ ((ReadBusNumbers conf bus device function s).1
        = conf (MakeAddress bus device function 0x18) % 2 ^ 32
      ∧ (ReadBusNumbers conf bus device function s).2.trace
        = s.trace ++ [PortOp.out32 kConfigAddress (MakeAddress bus device function 0x18),
            PortOp.in32 kConfigData])
    ∧ ((ReadDeviceId conf bus device function s).1 <<< 16
          ||| (ReadVendorId conf bus device function s).1)
        = conf (MakeAddress bus device function 0x00) % 2 ^ 32 := by
  have hv : (ReadVendorId conf bus device function s).1
      = conf (MakeAddress bus device function 0x00) % 2 ^ 32 % 2 ^ 16 := by
    simp only [ReadVendorId, ReadData_WriteAddress_fst, and_ffff_eq]
  have hd : (ReadDeviceId conf bus device function s).1
      = conf (MakeAddress bus device function 0x00) % 2 ^ 32 / 2 ^ 16 := by
    simp only [ReadDeviceId, ReadData_WriteAddress_fst, Nat.shiftRight_eq_div_pow]
    omega
  refine ⟨⟨hv, read_trace conf _ s⟩, ⟨hd, read_trace conf _ s⟩, ⟨?_, read_trace conf _ s⟩,
    ⟨?_, read_trace conf _ s⟩, ⟨ReadData_WriteAddress_fst conf _ s, read_trace conf _ s⟩, ?_⟩
  · simp only [ReadHeaderType, ReadData_WriteAddress_fst, and_ff_eq, Nat.shiftRight_eq_div_pow]
  · simp only [ReadClassCode, ReadData_WriteAddress_fst, and_ff_eq, Nat.shiftRight_eq_div_pow]
    congr 1
    omega
  · rw [hv, hd, Nat.shiftLeft_eq, Nat.mul_comm,
      ← Nat.mul_add_lt_is_or (Nat.mod_lt _ (by norm_num))]
    omega

/-- C14: `Match(b)` holds exactly when the base class is `b`, whatever the other fields;
`Match(b, s)` exactly when base and sub class are `b` and `s`, whatever the interface;
`Match(b, s, i)` exactly when all three fields are equal; so the three-argument match
implies the two-argument one, which implies the one-argument one. -/
theorem ClassCode_Match_iff (c : ClassCode) (b s i : Nat) :
    (c.Match b = true ↔ c.base = b)
      ∧ (c.Match2 b s = true ↔ c.base = b ∧ c.sub = s)
      ∧ (c.Match3 b s i = true ↔ c.base = b ∧ c.sub = s ∧ c.interface = i)
      ∧ (c.Match3 b s i = true → c.Match2 b s = true)
      ∧ (c.Match2 b s = true → c.Match b = true) := by
  have h1 : c.Match b = true ↔ c.base = b := by
    unfold ClassCode.Match
    rw [beq_iff_eq]
    exact eq_comm
  have h2 : c.Match2 b s = true ↔ c.base = b ∧ c.sub = s := by
    unfold ClassCode.Match2
    rw [Bool.and_eq_true, h1, beq_iff_eq]
    exact and_congr Iff.rfl eq_comm
  have h3 : c.Match3 b s i = true ↔ c.base = b ∧ c.sub = s ∧ c.interface = i := by
    unfold ClassCode.Match3
    rw [Bool.and_eq_true, h2, beq_iff_eq, and_assoc]
    exact and_congr Iff.rfl (and_congr Iff.rfl eq_comm)
  refine ⟨h1, h2, h3, ?_, ?_⟩
  · intro h
    exact h2.mpr ⟨(h3.mp h).1, (h3.mp h).2.1⟩
  · intro h
    exact h1.mpr (h2.mp h).1

/-- Witness of C14: the class code of an xHCI controller (0x0c, 0x03, 0x30). -/
theorem ClassCode_Match_iff_witness :
    ClassCode.Match3 { base := 0x0c, sub := 0x03, interface := 0x30 } 0x0c 0x03 0x30 = true
      ∧ ClassCode.Match2 { base := 0x0c, sub := 0x03, interface := 0x30 } 0x0c 0x03 = true
      ∧ ClassCode.Match { base := 0x0c, sub := 0x03, interface := 0x30 } 0x0c = true :=
  have h := ClassCode_Match_iff { base := 0x0c, sub := 0x03, interface := 0x30 } 0x0c 0x03 0x30
  have h3 := h.2.2.1.mpr ⟨rfl, rfl, rfl⟩
  ⟨h3, h.2.2.2.1 h3, h.2.2.2.2 (h.2.2.2.1 h3)⟩

/-! ## Traces of the scanner -/

theorem or_mod_two_pow (a b n : Nat) : (a ||| b) % 2 ^ n = a % 2 ^ n ||| b % 2 ^ n := by
  apply Nat.eq_of_testBit_eq
  intro i
  simp only [Nat.testBit_mod_two_pow, Nat.testBit_or]
  cases decide (i < n) <;> simp

theorem MakeAddress_low (b d f r : Nat) : MakeAddress b d f r % 2 ^ 8 = (r &&& 0xfc) % 2 ^ 8 := by
  unfold MakeAddress sh1
  simp only [or_mod_two_pow, Nat.shiftLeft_eq]
  have h1 : 1 * 2 ^ 31 % 2 ^ 32 % 2 ^ 8 = 0 := by norm_num
  have h2 : b * 2 ^ 16 % 2 ^ 32 % 2 ^ 8 = 0 := by omega
  have h3 : d * 2 ^ 11 % 2 ^ 32 % 2 ^ 8 = 0 := by omega
  have h4 : f * 2 ^ 8 % 2 ^ 32 % 2 ^ 8 = 0 := by omega
  rw [h1, h2, h3, h4]
  simp

theorem Paired_append (t1 t2 : List PortOp) (h1 : Paired t1 = true) (h2 : Paired t2 = true) :
    Paired (t1 ++ t2) = true := by
  induction t1 using Paired.induct with
  | case1 => simpa using h2
  | case2 p a q rest ih =>
    simp only [Paired, Bool.and_eq_true] at h1
    simp only [List.cons_append, Paired, Bool.and_eq_true]
    exact ⟨h1.1, ih h1.2⟩
  | case3 p a q v rest ih =>
    simp only [Paired, Bool.and_eq_true] at h1
    simp only [List.cons_append, Paired, Bool.and_eq_true]
    exact ⟨h1.1, ih h1.2⟩
  | case4 t hn1 hn2 hn3 =>
    exfalso
    unfold Paired at h1
    split at h1
    · exact hn1 rfl
    · exact hn2 _ _ _ _ rfl
    · exact hn3 _ _ _ _ _ rfl
    · exact Bool.false_ne_true h1

theorem Paired_readOps (a : Nat) : Paired (readOps a) = true := by
  simp [readOps, Paired]

theorem classCodeReads_append (t1 t2 : List PortOp) :
    classCodeReads (t1 ++ t2) = classCodeReads t1 + classCodeReads t2 := by
  induction t1 with
  | nil => simp [classCodeReads]
  | cons op rest ih =>
    cases op with
    | out32 p a =>
      show (if p = kConfigAddress ∧ a % 2 ^ 8 = 0x08 then 1 else 0) + classCodeReads (rest ++ t2)
        = (if p = kConfigAddress ∧ a % 2 ^ 8 = 0x08 then 1 else 0) + classCodeReads rest
          + classCodeReads t2
      rw [ih]; omega
    | in32 p =>
      show classCodeReads (rest ++ t2) = classCodeReads rest + classCodeReads t2
      exact ih

theorem classCodeReads_readOps (b d f r : Nat) :
    classCodeReads (readOps (MakeAddress b d f r))
      = if (r &&& 0xfc) % 2 ^ 8 = 0x08 then 1 else 0 := by
  have h := MakeAddress_low b d f r
  simp only [readOps, classCodeReads, h, true_and, Nat.add_zero]

theorem Error.eq_kSuccess_of_not_failed {e : Error} (h : e.failed = false) :
    e = Error.kSuccess := by
  cases e <;> simp [Error.failed] at h ⊢

theorem Error.failed_of_ne {e : Error} (h : e ≠ Error.kSuccess) : e.failed = true := by
  cases e <;> simp [Error.failed] at h ⊢

theorem trail_done (conf : ConfigSpace) (s : Machine) (h32 : s.num_device ≤ 32) :
    Trail conf s Error.kSuccess s :=
  ⟨[], by simp, rfl, le_refl _, h32, fun _ => by simp [classCodeReads],
    fun h => absurd rfl h⟩

theorem trail_prepend {conf : ConfigSpace} {s s1 s' : Machine} {e : Error} (t1 : List PortOp)
    (ht : s1.trace = s.trace ++ t1) (hp : Paired t1 = true)
    (hc : (classCodeReads t1 : Int) = s1.num_device - s.num_device)
    (h : Trail conf s1 e s') : Trail conf s e s' := by
  obtain ⟨t2, ht2, hp2, hle, h32, hs, hf⟩ := h
  have hnn : (0 : Int) ≤ (classCodeReads t1 : Int) := Int.ofNat_nonneg _
  refine ⟨t1 ++ t2, ?_, Paired_append t1 t2 hp hp2, by omega, h32, ?_, ?_⟩
  · rw [ht2, ht, List.append_assoc]
  · intro he
    have := hs he
    rw [classCodeReads_append]
    push_cast
    omega
  · intro he
    obtain ⟨hfull, hcount, hn, b, d, f, s0, t0, hs0, ht0⟩ := hf he
    refine ⟨hfull, ?_, hn, b, d, f, s0, t1 ++ t0, hs0, ?_⟩
    · rw [classCodeReads_append]
      push_cast
      omega
    · rw [ht0, List.append_assoc]

/-- A step that only reads a register other than the class code. -/
theorem trail_after_read {conf : ConfigSpace} {s s' : Machine} {e : Error} (a : Nat)
    (ha : classCodeReads (readOps a) = 0)
    (h : Trail conf (ReadData conf (WriteAddress a s)).2 e s') : Trail conf s e s' := by
  refine trail_prepend (readOps a) (read_trace conf a s) (Paired_readOps a) ?_ h
  rw [ha]
  show (0 : Int) = s.num_device - s.num_device
  omega

theorem trails_bind {conf : ConfigSpace} {c1 c2 : Machine → Option (Error × Machine)}
    (h1 : Trails conf c1) (h2 : Trails conf c2) : Trails conf (bindScan c1 c2) := by
  intro s e s' h0 h32 hrun
  unfold bindScan at hrun
  cases hc1 : c1 s with
  | none => rw [hc1] at hrun; cases hrun
  | some r =>
    obtain ⟨e1, s1⟩ := r
    rw [hc1] at hrun
    simp only at hrun
    have htr1 := h1 s e1 s1 h0 h32 hc1
    by_cases hfail : e1.failed = true
    · rw [if_pos hfail] at hrun
      cases hrun
      exact htr1
    · rw [if_neg hfail] at hrun
      have he1 : e1 = Error.kSuccess :=
        Error.eq_kSuccess_of_not_failed (by simpa using hfail)
      obtain ⟨t1, ht1, hp1, hle1, h321, hs1, _⟩ := htr1
      exact trail_prepend t1 ht1 hp1 (hs1 he1) (h2 s1 e s' (by omega) h321 hrun)

theorem vendor_not_class (b d f : Nat) : classCodeReads (readOps (MakeAddress b d f 0x00)) = 0 := by
  rw [classCodeReads_readOps]; decide

theorem header_not_class (b d f : Nat) : classCodeReads (readOps (MakeAddress b d f 0x0c)) = 0 := by
  rw [classCodeReads_readOps]; decide

theorem busnum_not_class (b d f : Nat) : classCodeReads (readOps (MakeAddress b d f 0x18)) = 0 := by
  rw [classCodeReads_readOps]; decide

theorem class_is_class (b d f : Nat) : classCodeReads (readOps (MakeAddress b d f 0x08)) = 1 := by
  rw [classCodeReads_readOps]; decide

theorem trails_ScanFunction {conf : ConfigSpace}
    {scanBus : Nat → Machine → Option (Error × Machine)} (b d f : Nat)
    (hsub : ∀ b', Trails conf (scanBus b')) : Trails conf (ScanFunction scanBus conf b d f) := by
  intro s e s' h0 h32 hrun
  unfold ScanFunction at hrun
  simp only [ReadClassCode_fst, ReadHeaderType_fst, Match2_bridge] at hrun
  generalize hs2 : (ReadHeaderType conf b d f (ReadClassCode conf b d f s).2).2 = s2 at hrun
  have ht2 : s2.trace = s.trace
      ++ (readOps (MakeAddress b d f 0x08) ++ readOps (MakeAddress b d f 0x0c)) := by
    rw [← hs2]
    show (ReadData conf (WriteAddress _ (ReadData conf (WriteAddress _ s)).2)).2.trace = _
    rw [read_trace, read_trace, List.append_assoc]
    rfl
  have hn2 : s2.num_device = s.num_device := by rw [← hs2]; rfl
  have hp2 : Paired (readOps (MakeAddress b d f 0x08) ++ readOps (MakeAddress b d f 0x0c))
      = true := Paired_append _ _ (Paired_readOps _) (Paired_readOps _)
  have hc2 : classCodeReads (readOps (MakeAddress b d f 0x08)
      ++ readOps (MakeAddress b d f 0x0c)) = 1 := by
    rw [classCodeReads_append, class_is_class, header_not_class]
  unfold AddDevice at hrun
  by_cases hfull : s2.num_device = 32
  · simp only [hfull, if_true, MAKE_ERROR, Error.failed] at hrun
    cases hrun
    refine ⟨_, ht2, hp2, by omega, by omega, fun h => (by cases h), fun _ => ⟨rfl, ?_, hfull, ?_⟩⟩
    · rw [hc2, hn2]; push_cast; omega
    · exact ⟨b, d, f, s, [], hs2.symm, rfl⟩
  · simp only [hfull, if_false, MAKE_ERROR, Error.failed, Bool.false_eq_true] at hrun
    by_cases hbr : modelIsBridge conf b d f = true
    · simp only [hbr, if_true] at hrun
      generalize hs4 : (ReadBusNumbers conf b d f
        { s2 with devices := Function.update s2.devices s2.num_device
                    { bus := b, device := d, function := f,
                      header_type := modelHeaderType conf b d f,
                      class_code := modelClassCode conf b d f }
                  num_device := s2.num_device + 1 }).2 = s4 at hrun
      have ht4 : s4.trace = s.trace ++ ((readOps (MakeAddress b d f 0x08)
          ++ readOps (MakeAddress b d f 0x0c)) ++ readOps (MakeAddress b d f 0x18)) := by
        rw [← hs4]
        show (ReadData conf (WriteAddress _ _)).2.trace = _
        rw [read_trace]
        show s2.trace ++ _ = _
        rw [ht2, List.append_assoc]
        rfl
      have hn4 : s4.num_device = s.num_device + 1 := by rw [← hs4, ← hn2]; rfl
      refine trail_prepend _ ht4 (Paired_append _ _ hp2 (Paired_readOps _)) ?_
        (hsub _ s4 e s' (by omega) (by omega) hrun)
      rw [classCodeReads_append, hc2, busnum_not_class, hn4]
      push_cast
      omega
    · simp only [hbr, if_false] at hrun
      cases hrun
      refine ⟨_, ht2, hp2, ?_, ?_, fun _ => ?_, fun h => absurd rfl h⟩
      · show s.num_device ≤ s2.num_device + 1
        omega
      · show s2.num_device + 1 ≤ 32
        omega
      · rw [hc2]
        show ((1 : Nat) : Int) = s2.num_device + 1 - s.num_device
        push_cast
        omega

theorem trails_loop {conf : ConfigSpace} (loop : List Nat → Machine → Option (Error × Machine))
    (read : Nat → Machine → Nat × Machine) (body : Nat → Machine → Option (Error × Machine))
    (hnil : ∀ s, loop [] s = some (MAKE_ERROR Error.kSuccess, s))
    (hcons : ∀ x rest s, loop (x :: rest) s
      = if (read x s).1 = 0xffff then loop rest (read x s).2
        else bindScan (body x) (loop rest) (read x s).2)
    (hread : ∀ x s, ∃ a, (read x s).2 = (ReadData conf (WriteAddress a s)).2
      ∧ classCodeReads (readOps a) = 0)
    (hbody : ∀ x, Trails conf (body x)) :
    ∀ xs, Trails conf (loop xs) := by
  intro xs
  induction xs with
  | nil =>
    intro s e s' _ h32 hrun
    rw [hnil] at hrun
    cases hrun
    exact trail_done conf s h32
  | cons x rest ih =>
    intro s e s' h0 h32 hrun
    rw [hcons] at hrun
    obtain ⟨a, ha, hca⟩ := hread x s
    rw [ha] at hrun
    apply trail_after_read a hca
    by_cases habs : (read x s).1 = 0xffff
    · rw [if_pos habs] at hrun
      exact ih _ e s' h0 h32 hrun
    · rw [if_neg habs] at hrun
      exact trails_bind (hbody x) ih _ e s' h0 h32 hrun

theorem trails_ScanDeviceLoop {conf : ConfigSpace}
    {scanBus : Nat → Machine → Option (Error × Machine)} (b d : Nat)
    (hsub : ∀ b', Trails conf (scanBus b')) (fs : List Nat) :
    Trails conf (ScanDeviceLoop scanBus conf b d fs) :=
  trails_loop (ScanDeviceLoop scanBus conf b d) (fun f s => ReadVendorId conf b d f s)
    (fun f => ScanFunction scanBus conf b d f) (fun _ => rfl) (fun _ _ _ => rfl)
    (fun f _ => ⟨MakeAddress b d f 0x00, rfl, vendor_not_class b d f⟩)
    (fun f => trails_ScanFunction b d f hsub) fs

theorem trails_ScanDevice {conf : ConfigSpace}
    {scanBus : Nat → Machine → Option (Error × Machine)} (b d : Nat)
    (hsub : ∀ b', Trails conf (scanBus b')) : Trails conf (ScanDevice scanBus conf b d) := by
  have htail : Trails conf (fun s1 =>
      if IsSingleFunctionDevice (ReadHeaderType conf b d 0 s1).1 then
        some (MAKE_ERROR Error.kSuccess, (ReadHeaderType conf b d 0 s1).2)
      else ScanDeviceLoop scanBus conf b d (List.range' 1 7) (ReadHeaderType conf b d 0 s1).2) := by
    intro s1 e s' h0 h32 hrun
    apply trail_after_read (MakeAddress b d 0 0x0c) (header_not_class b d 0)
    simp only at hrun
    split at hrun
    · cases hrun
      exact trail_done conf _ h32
    · exact trails_ScanDeviceLoop b d hsub _ _ e s' h0 h32 hrun
  intro s e s' h0 h32 hrun
  refine trails_bind (trails_ScanFunction b d 0 hsub) htail s e s' h0 h32 ?_
  rw [← hrun]
  unfold ScanDevice bindScan
  cases ScanFunction scanBus conf b d 0 s <;> rfl

theorem trails_ScanBusLoop {conf : ConfigSpace}
    {scanBus : Nat → Machine → Option (Error × Machine)} (b : Nat)
    (hsub : ∀ b', Trails conf (scanBus b')) (ds : List Nat) :
    Trails conf (ScanBusLoop scanBus conf b ds) :=
  trails_loop (ScanBusLoop scanBus conf b) (fun d s => ReadVendorId conf b d 0 s)
    (fun d => ScanDevice scanBus conf b d) (fun _ => rfl) (fun _ _ _ => rfl)
    (fun d _ => ⟨MakeAddress b d 0 0x00, rfl, vendor_not_class b d 0⟩)
    (fun d => trails_ScanDevice b d hsub) ds

theorem trails_ScanBus (conf : ConfigSpace) (fuel : Nat) :
    ∀ b, Trails conf (ScanBus conf fuel b) := by
  induction fuel with
  | zero => intro b s e s' _ _ hrun; cases hrun
  | succ fuel ih => intro b; exact trails_ScanBusLoop b ih (List.range 32)

theorem trails_ScanAllBusLoop (conf : ConfigSpace) (fuel : Nat) (fs : List Nat) :
    Trails conf (ScanAllBusLoop conf fuel fs) :=
  trails_loop (ScanAllBusLoop conf fuel) (fun f s => ReadVendorId conf 0 0 f s)
    (fun f => ScanBus conf fuel f) (fun _ => rfl) (fun _ _ _ => rfl)
    (fun f _ => ⟨MakeAddress 0 0 f 0x00, rfl, vendor_not_class 0 0 f⟩)
    (fun f => trails_ScanBus conf fuel f) fs

/-- Whenever `ScanAllBus` returns, it leaves a trail that starts from `num_device = 0`. -/
theorem ScanAllBus_trail (conf : ConfigSpace) (fuel : Nat) (s s' : Machine) (e : Error)
    (hrun : ScanAllBus conf fuel s = some (e, s')) :
    Trail conf { s with num_device := 0 } e s' := by
  unfold ScanAllBus at hrun
  apply trail_after_read (MakeAddress 0 0 0 0x0c) (header_not_class 0 0 0)
  simp only at hrun
  split at hrun
  · exact trails_ScanBus conf fuel 0 _ e s' (le_refl _)
      (show (0 : Int) ≤ 32 by decide) hrun
  · exact trails_ScanAllBusLoop conf fuel _ _ e s' (le_refl _)
      (show (0 : Int) ≤ 32 by decide) hrun

/-- With fuel for 33 nested bus scans `ScanAllBus` returns, for every model and state. -/
theorem ScanAllBus_returns (conf : ConfigSpace) (fuel : Nat) (s : Machine) (hfuel : 33 ≤ fuel) :
    ∃ e s', ScanAllBus conf fuel s = some (e, s') := by
  obtain ⟨s', h, _⟩ := ScanAllBus_refines conf fuel 33 s hfuel (dfsAll_33 conf)
  exact ⟨_, s', h⟩

/-! ## The claims about termination, failure and the port protocol -/

/-- C15: `ScanAllBus` terminates for every configuration-space model, cyclic ones included:
fuel for 33 nested `ScanBus` calls is always enough (so the recursion is never deeper than
the registry capacity plus one), and since every `ScanFunction` call attempts an addition
before it recurses, a scan makes at most 33 `ScanFunction` calls: as many as it added
entries when it succeeds, and 32 + 1 when it fails. -/
theorem ScanAllBus_terminates (conf : ConfigSpace) (fuel : Nat) (s : Machine)
    (hfuel : 33 ≤ fuel) :
    (∃ e s' t, ScanAllBus conf fuel s = some (e, s') ∧ s'.trace = s.trace ++ t
        ∧ classCodeReads t ≤ 33
        ∧ (e = Error.kSuccess → (classCodeReads t : Int) = s'.num_device)
        ∧ (e ≠ Error.kSuccess → classCodeReads t = 33 ∧ s'.num_device = 32))
      ∧ (ScanAllBus conf 33 s).isSome = true := by
  constructor
  · obtain ⟨e, s', hrun⟩ := ScanAllBus_returns conf fuel s hfuel
    obtain ⟨t, ht, _, h0, h32, hs, hf⟩ := ScanAllBus_trail conf fuel s s' e hrun
    have h0' : (0 : Int) ≤ s'.num_device := h0
    refine ⟨e, s', t, hrun, ht, ?_, ?_, ?_⟩
    · by_cases he : e = Error.kSuccess
      · have h := hs he
        have h' : (classCodeReads t : Int) = s'.num_device - 0 := h
        omega
      · obtain ⟨_, hc, hn, _⟩ := hf he
        have hc' : (classCodeReads t : Int) = s'.num_device - 0 + 1 := hc
        omega
    · intro he
      have h' : (classCodeReads t : Int) = s'.num_device - 0 := hs he
      omega
    · intro he
      obtain ⟨_, hc, hn, _⟩ := hf he
      have hc' : (classCodeReads t : Int) = s'.num_device - 0 + 1 := hc
      exact ⟨by omega, hn⟩
  · obtain ⟨e, s', hrun⟩ := ScanAllBus_returns conf 33 s (le_refl _)
    rw [hrun]
    rfl

theorem ScanFunction_full {scanBus : Nat → Machine → Option (Error × Machine)}
    (conf : ConfigSpace) (b d f : Nat) (s : Machine) (hfull : s.num_device = 32) :
    ScanFunction scanBus conf b d f s
      = some (Error.kFull, (ReadHeaderType conf b d f (ReadClassCode conf b d f s).2).2) := by
  unfold ScanFunction AddDevice
  have h : (ReadHeaderType conf b d f (ReadClassCode conf b d f s).2).2.num_device = 32 := hfull
  simp only [h, if_true, MAKE_ERROR, Error.failed]

/-- C16: fail-fast. A `ScanFunction` call whose `AddDevice` finds the registry full
returns `kFull` in the state right after its header-type read: it does not read the
bus-numbers register and does not recurse. Whenever `ScanAllBus` does not return
`kSuccess` it returns `kFull`, and the state it returns is the state in which the failing
`ScanFunction` called `AddDevice`: the trace ends with the class-code and header-type
reads of that call, which is the 33rd and last `ScanFunction` call, so no sibling function,
device or bus was examined after it, and `AddDevice` still fails there. When `ScanAllBus`
returns `kSuccess`, every `ScanFunction` call added its entry. -/
theorem ScanAllBus_fail_fast (conf : ConfigSpace) (fuel : Nat) (s : Machine)
    (hfuel : 33 ≤ fuel) :
    (∀ (scanBus : Nat → Machine → Option (Error × Machine)) (b d f : Nat) (s1 : Machine),
        s1.num_device = 32 →
        ScanFunction scanBus conf b d f s1
          = some (Error.kFull, (ReadHeaderType conf b d f (ReadClassCode conf b d f s1).2).2))
      ∧ ∃ e s' t, ScanAllBus conf fuel s = some (e, s') ∧ s'.trace = s.trace ++ t
        ∧ (e = Error.kSuccess → (classCodeReads t : Int) = s'.num_device)
        ∧ (e ≠ Error.kSuccess → e = Error.kFull ∧ s'.num_device = 32
            ∧ classCodeReads t = 33
            ∧ (∀ dev, AddDevice dev s' = (Error.kFull, s'))
            ∧ ∃ b d f s0 t0,
                s' = (ReadHeaderType conf b d f (ReadClassCode conf b d f s0).2).2
                ∧ t = t0 ++ (readOps (MakeAddress b d f 0x08)
                        ++ readOps (MakeAddress b d f 0x0c))
                ∧ classCodeReads t0 = 32) := by
  refine ⟨fun scanBus b d f s1 h => ScanFunction_full conf b d f s1 h, ?_⟩
  obtain ⟨e, s', hrun⟩ := ScanAllBus_returns conf fuel s hfuel
  obtain ⟨t, ht, _, h0, h32, hs, hf⟩ := ScanAllBus_trail conf fuel s s' e hrun
  refine ⟨e, s', t, hrun, ht, ?_, ?_⟩
  · intro he
    have h' : (classCodeReads t : Int) = s'.num_device - 0 := hs he
    omega
  · intro he
    obtain ⟨hfull, hc, hn, b, d, f, s0, t0, hs0, ht0⟩ := hf he
    have hc' : (classCodeReads t : Int) = s'.num_device - 0 + 1 := hc
    have h33 : classCodeReads t = 33 := by omega
    refine ⟨hfull, hn, h33, ?_, b, d, f, s0, t0, hs0, ht0, ?_⟩
    · intro dev
      unfold AddDevice
      rw [if_pos hn]
      rfl
    · rw [ht0, classCodeReads_append, classCodeReads_append, class_is_class,
        header_not_class] at h33
      omega

/-- Witness of C15: the cyclic model, a bridge on bus 0 whose secondary bus is bus 0. -/
theorem ScanAllBus_terminates_witness :
    (∃ e s' t, ScanAllBus cyclicModel 33 Machine.initial = some (e, s')
        ∧ s'.trace = Machine.initial.trace ++ t
        ∧ classCodeReads t ≤ 33
        ∧ (e = Error.kSuccess → (classCodeReads t : Int) = s'.num_device)
        ∧ (e ≠ Error.kSuccess → classCodeReads t = 33 ∧ s'.num_device = 32))
      ∧ (ScanAllBus cyclicModel 33 Machine.initial).isSome = true :=
  ScanAllBus_terminates cyclicModel 33 Machine.initial (by decide)

/-- Witness of C16: a scan of the model with 40 functions. -/
theorem ScanAllBus_fail_fast_witness :
    ∃ e s' t, ScanAllBus fortyModel 33 Machine.initial = some (e, s')
      ∧ s'.trace = Machine.initial.trace ++ t
      ∧ (e = Error.kSuccess → (classCodeReads t : Int) = s'.num_device)
      ∧ (e ≠ Error.kSuccess → e = Error.kFull ∧ s'.num_device = 32
          ∧ classCodeReads t = 33
          ∧ (∀ dev, AddDevice dev s' = (Error.kFull, s'))
          ∧ ∃ b d f s0 t0,
              s' = (ReadHeaderType fortyModel b d f (ReadClassCode fortyModel b d f s0).2).2
              ∧ t = t0 ++ (readOps (MakeAddress b d f 0x08)
                      ++ readOps (MakeAddress b d f 0x0c))
              ∧ classCodeReads t0 = 32) :=
  (ScanAllBus_fail_fast fortyModel 33 Machine.initial (by decide)).2

theorem ReadConfReg_paired (conf : ConfigSpace) (dev : Device) (r : Nat) (s : Machine) :
    ∃ t, (ReadConfReg conf dev r s).2.trace = s.trace ++ t ∧ Paired t = true :=
  ⟨_, ReadConfReg_trace conf dev r s, by simp [Paired]⟩

theorem ReadBar_paired (conf : ConfigSpace) (device : Device) (bar_index : Nat) (s : Machine) :
    ∃ t, (ReadBar conf device bar_index s).2.trace = s.trace ++ t ∧ Paired t = true := by
  by_cases h6 : 6 ≤ bar_index
  · refine ⟨[], ?_, rfl⟩
    unfold ReadBar
    rw [if_pos h6]
    simp
  · have hi : bar_index < 6 := by omega
    rcases Nat.mod_two_eq_zero_or_one (barRegister conf device bar_index / 2 ^ 2) with hb | hb
    · rw [ReadBar_low conf device bar_index s hi hb]
      exact ReadConfReg_paired conf device _ s
    · by_cases h5 : bar_index = 5
      · subst h5
        rw [ReadBar_last conf device s hb]
        exact ReadConfReg_paired conf device _ s
      · rw [ReadBar_pair conf device bar_index s (by omega) hb]
        refine ⟨readOps (MakeAddress device.bus device.device device.function
            (0x10 + 4 * bar_index))
          ++ readOps (MakeAddress device.bus device.device device.function
            (0x10 + 4 * (bar_index + 1))), ?_,
          Paired_append _ _ (Paired_readOps _) (Paired_readOps _)⟩
        show (ReadConfReg conf device _ (ReadConfReg conf device _ s).2).2.trace = _
        rw [ReadConfReg_trace, ReadConfReg_trace, List.append_assoc]
        rfl

/-- C18: the two-register protocol is respected by every operation: the port accesses that
a call of `ReadVendorId`, `ReadDeviceId`, `ReadHeaderType`, `ReadClassCode`,
`ReadBusNumbers`, `ReadConfReg`, `WriteConfReg`, `ReadBar` or `ScanAllBus` adds to the
trace are a concatenation of pairs, each a write of the address port 0x0CF8 immediately
followed by exactly one read or write of the data port 0x0CFC. -/
theorem port_protocol (conf : ConfigSpace) (bus device function reg_addr value bar_index
    fuel : Nat) (dev : Device) (s : Machine) :
    (∃ t, (ReadVendorId conf bus device function s).2.trace = s.trace ++ t ∧ Paired t = true)
    ∧ (∃ t, (ReadDeviceId conf bus device function s).2.trace = s.trace ++ t
        ∧ Paired t = true)
    ∧ (∃ t, (ReadHeaderType conf bus device function s).2.trace = s.trace ++ t
        ∧ Paired t = true)
    ∧ (∃ t, (ReadClassCode conf bus device function s).2.trace = s.trace ++ t
        ∧ Paired t = true)
    ∧ (∃ t, (ReadBusNumbers conf bus device function s).2.trace = s.trace ++ t
        ∧ Paired t = true)
    ∧ (∃ t, (ReadConfReg conf dev reg_addr s).2.trace = s.trace ++ t ∧ Paired t = true)
    ∧ (∃ t, (WriteConfReg dev reg_addr value s).trace = s.trace ++ t ∧ Paired t = true)
    ∧ (∃ t, (ReadBar conf dev bar_index s).2.trace = s.trace ++ t ∧ Paired t = true)
    ∧ (∀ e s', ScanAllBus conf fuel s = some (e, s') →
        ∃ t, s'.trace = s.trace ++ t ∧ Paired t = true)
    ∧ (33 ≤ fuel → ∃ e s' t, ScanAllBus conf fuel s = some (e, s')
        ∧ s'.trace = s.trace ++ t ∧ Paired t = true)
    ∧ kConfigAddress = 0x0CF8 ∧ kConfigData = 0x0CFC := by
  have hread : ∀ a, ∃ t, (ReadData conf (WriteAddress a s)).2.trace = s.trace ++ t
      ∧ Paired t = true := fun a => ⟨_, read_trace conf a s, Paired_readOps a⟩
  have hscan : ∀ e s', ScanAllBus conf fuel s = some (e, s') →
      ∃ t, s'.trace = s.trace ++ t ∧ Paired t = true := by
    intro e s' hrun
    obtain ⟨t, ht, hp, _⟩ := ScanAllBus_trail conf fuel s s' e hrun
    exact ⟨t, ht, hp⟩
  refine ⟨hread _, hread _, hread _, hread _, hread _, ReadConfReg_paired conf dev reg_addr s,
    ?_, ReadBar_paired conf dev bar_index s, hscan, ?_, rfl, rfl⟩
  · refine ⟨[PortOp.out32 kConfigAddress (MakeAddress dev.bus dev.device dev.function reg_addr),
      PortOp.out32 kConfigData value], ?_, by simp [Paired]⟩
    simp [WriteConfReg, WriteData, WriteAddress, IoOut32]
  · intro hfuel
    obtain ⟨e, s', hrun⟩ := ScanAllBus_returns conf fuel s hfuel
    obtain ⟨t, ht, hp⟩ := hscan e s' hrun
    exact ⟨e, s', t, hrun, ht, hp⟩

set_option maxRecDepth 100000 in
/-- Witness of C18: a scan of the bridge model and a register write. -/
theorem port_protocol_witness :
    (∃ e s' t, ScanAllBus bridgeModel 33 Machine.initial = some (e, s')
        ∧ s'.trace = Machine.initial.trace ++ t ∧ Paired t = true)
      ∧ Paired (WriteConfReg Device.zero 0x10 0xFFFFFFFF Machine.initial).trace = true :=
  ⟨(port_protocol bridgeModel 0 0 0 0x10 0xFFFFFFFF 0 33 Device.zero Machine.initial).2.2.2.2.2.2.2.2.2.1
      (by decide), by decide⟩

/-! ## The claims about single-function devices and recorded entries -/

theorem vendor_read_not_mem (b d f r : Nat) (hr : (r &&& 0xfc) % 2 ^ 8 ≠ 0) (b2 d2 f2 : Nat) :
    PortOp.out32 kConfigAddress (MakeAddress b2 d2 f2 0x00) ∉ readOps (MakeAddress b d f r) := by
  intro hmem
  simp only [readOps, List.mem_cons, List.mem_singleton, PortOp.out32.injEq, true_and,
    List.not_mem_nil, or_false] at hmem
  rcases hmem with h | h
  · have h1 := MakeAddress_low b2 d2 f2 0x00
    have h2 := MakeAddress_low b d f r
    rw [h, h2] at h1
    exact hr h1
  · cases h

/-- The accesses `ScanFunction` makes itself are the class-code and header-type reads and,
for a bridge that was added, the bus-numbers read; after them it either returns or hands
over to `ScanBus` for the secondary bus. None of them is a vendor-id read. -/
theorem ScanFunction_own_accesses (scanBus : Nat → Machine → Option (Error × Machine))
    (conf : ConfigSpace) (b d f : Nat) (s : Machine) :
    ∃ s3 t3, s3.trace = s.trace ++ t3
      ∧ (∀ b2 d2 f2, PortOp.out32 kConfigAddress (MakeAddress b2 d2 f2 0x00) ∉ t3)
      ∧ ((∃ e, ScanFunction scanBus conf b d f s = some (e, s3))
        ∨ ScanFunction scanBus conf b d f s = scanBus (modelSecondaryBus conf b d f) s3) := by
  have hcc := vendor_read_not_mem b d f 0x08 (by decide)
  have hht := vendor_read_not_mem b d f 0x0c (by decide)
  have hbn := vendor_read_not_mem b d f 0x18 (by decide)
  have ht2 : (ReadHeaderType conf b d f (ReadClassCode conf b d f s).2).2.trace = s.trace
      ++ (readOps (MakeAddress b d f 0x08) ++ readOps (MakeAddress b d f 0x0c)) := by
    show (ReadData conf (WriteAddress _ (ReadData conf (WriteAddress _ s)).2)).2.trace = _
    rw [read_trace, read_trace, List.append_assoc]
    rfl
  have hno2 : ∀ b2 d2 f2, PortOp.out32 kConfigAddress (MakeAddress b2 d2 f2 0x00)
      ∉ readOps (MakeAddress b d f 0x08) ++ readOps (MakeAddress b d f 0x0c) := by
    intro b2 d2 f2 hmem
    rcases List.mem_append.mp hmem with h | h
    · exact hcc b2 d2 f2 h
    · exact hht b2 d2 f2 h
  unfold ScanFunction
  simp only [ReadClassCode_fst, ReadHeaderType_fst, Match2_bridge, ReadBusNumbers_secondary]
  have hdev : (⟨b, d, f, modelHeaderType conf b d f, modelClassCode conf b d f⟩ : Device)
      = modelDevice conf b d f := rfl
  rw [hdev]
  generalize hs2 : (ReadHeaderType conf b d f (ReadClassCode conf b d f s).2).2 = s2 at ht2 ⊢
  have ht3 : (AddDevice (modelDevice conf b d f) s2).2.trace = s2.trace := by
    unfold AddDevice
    split <;> rfl
  by_cases hfail : (AddDevice (modelDevice conf b d f) s2).1.failed = true
  · rw [if_pos hfail]
    exact ⟨(AddDevice (modelDevice conf b d f) s2).2, _, ht3.trans ht2, hno2,
      Or.inl ⟨(AddDevice (modelDevice conf b d f) s2).1, rfl⟩⟩
  · rw [if_neg hfail]
    by_cases hbr : modelIsBridge conf b d f = true
    · rw [if_pos hbr]
      refine ⟨_, (readOps (MakeAddress b d f 0x08) ++ readOps (MakeAddress b d f 0x0c))
        ++ readOps (MakeAddress b d f 0x18), ?_, ?_, Or.inr rfl⟩
      · show (ReadData conf (WriteAddress _ _)).2.trace = _
        rw [read_trace, ht3, ht2, List.append_assoc]
        rfl
      · intro b2 d2 f2 hmem
        rcases List.mem_append.mp hmem with h | h
        · exact hno2 b2 d2 f2 h
        · exact hbn b2 d2 f2 h
    · rw [if_neg hbr]
      exact ⟨_, _, ht3.trans ht2, hno2, Or.inl ⟨_, rfl⟩⟩

/-- C17: for a device whose function-0 header type has bit 7 clear, `ScanDevice` is
`ScanFunction` for function 0 followed, when that succeeded, by one header-type read of
function 0 and nothing else: it calls `ScanFunction` for function 0 only, and neither the
accesses `ScanDevice` makes after that call nor the accesses `ScanFunction` makes itself
contain a vendor-id read (an address write `MakeAddress bus device f 0x00`), for
`f` in 1..7 or any other function. -/
theorem ScanDevice_single_function (scanBus : Nat → Machine → Option (Error × Machine))
    (conf : ConfigSpace) (b d : Nat) (s : Machine)
    (hsingle : modelHeaderType conf b d 0 / 2 ^ 7 % 2 = 0) :
    ScanDevice scanBus conf b d s
        = bindScan (ScanFunction scanBus conf b d 0)
            (fun s1 => some (Error.kSuccess, (ReadHeaderType conf b d 0 s1).2)) s
      ∧ (∀ e s1, ScanFunction scanBus conf b d 0 s = some (e, s1) →
          ∃ s2 t, ScanDevice scanBus conf b d s = some (e, s2)
            ∧ s2.trace = s1.trace ++ t
            ∧ (t = [] ∨ t = readOps (MakeAddress b d 0 0x0c))
            ∧ ∀ f, 1 ≤ f → f ≤ 7 →
                PortOp.out32 kConfigAddress (MakeAddress b d f 0x00) ∉ t)
      ∧ (∃ s3 t3, s3.trace = s.trace ++ t3
          ∧ (∀ f, 1 ≤ f → f ≤ 7 →
              PortOp.out32 kConfigAddress (MakeAddress b d f 0x00) ∉ t3)
          ∧ ((∃ e, ScanFunction scanBus conf b d 0 s = some (e, s3))
            ∨ ScanFunction scanBus conf b d 0 s
                = scanBus (modelSecondaryBus conf b d 0) s3)) := by
  have heq : ScanDevice scanBus conf b d s
      = bindScan (ScanFunction scanBus conf b d 0)
          (fun s1 => some (Error.kSuccess, (ReadHeaderType conf b d 0 s1).2)) s := by
    unfold ScanDevice bindScan
    cases ScanFunction scanBus conf b d 0 s with
    | none => rfl
    | some r =>
      have h128 : modelHeaderType conf b d 0 / 128 % 2 = 0 := hsingle
      simp [ReadHeaderType_fst, IsSingleFunctionDevice_eq, h128, MAKE_ERROR]
  refine ⟨heq, ?_, ?_⟩
  · intro e s1 hrun
    rw [heq]
    unfold bindScan
    rw [hrun]
    by_cases hfail : e.failed = true
    · refine ⟨s1, [], ?_, by simp, Or.inl rfl, fun _ _ _ h => by cases h⟩
      simp [hfail]
    · have he : e = Error.kSuccess := Error.eq_kSuccess_of_not_failed (by simpa using hfail)
      subst he
      refine ⟨(ReadHeaderType conf b d 0 s1).2, readOps (MakeAddress b d 0 0x0c), ?_,
        read_trace conf _ s1, Or.inr rfl,
        fun f _ _ => vendor_read_not_mem b d 0 0x0c (by decide) b d f⟩
      simp [Error.failed]
  · obtain ⟨s3, t3, ht3, hno, hres⟩ := ScanFunction_own_accesses scanBus conf b d 0 s
    exact ⟨s3, t3, ht3, fun f _ _ => hno b d f, hres⟩

set_option maxRecDepth 100000 in
/-- Witness of C17: device (1, 0) of the bridge model, whose header type is 0x00. -/
theorem ScanDevice_single_function_witness :
    modelHeaderType bridgeModel 1 0 0 / 2 ^ 7 % 2 = 0
      ∧ ScanDevice (ScanBus bridgeModel 1) bridgeModel 1 0 Machine.initial
        = bindScan (ScanFunction (ScanBus bridgeModel 1) bridgeModel 1 0 0)
            (fun s1 => some (Error.kSuccess, (ReadHeaderType bridgeModel 1 0 0 s1).2))
            Machine.initial :=
  ⟨by decide,
    (ScanDevice_single_function (ScanBus bridgeModel 1) bridgeModel 1 0 Machine.initial
      (by decide)).1⟩

theorem all_forall_mem {P : Device → Prop} {g : Nat → Walk} (xs : List Nat)
    (h : ∀ y ∈ xs, ∀ x ∈ (g y).1, P x) : ∀ x ∈ (Walk.all g xs).1, P x := by
  induction xs with
  | nil => intro x hx; simp [Walk.all] at hx
  | cons y rest ih =>
    rw [Walk.all_cons]
    exact seq_forall (h y (List.mem_cons_self _ _))
      (ih (fun z hz => h z (List.mem_cons_of_mem _ hz)))

/-- An entry is valid for a model when its device number is below 32, its function number
below 8, and the model holds a vendor id other than 0xFFFF for its triple. -/
theorem valid_modelDevice (conf : ConfigSpace) (b d f : Nat) (hd : d < 32) (hf : f < 8)
    (hp : modelPresent conf b d f = true) :
    (modelDevice conf b d f).device < 32 ∧ (modelDevice conf b d f).function < 8
      ∧ modelVendorId conf (modelDevice conf b d f).bus (modelDevice conf b d f).device
          (modelDevice conf b d f).function ≠ 0xFFFF := by
  refine ⟨hd, hf, ?_⟩
  unfold modelPresent at hp
  simpa [modelDevice] using hp

theorem dfsBus_valid (conf : ConfigSpace) (depth : Nat) :
    ∀ b, ∀ x ∈ (dfsBus conf depth b).1,
      x.device < 32 ∧ x.function < 8 ∧ modelVendorId conf x.bus x.device x.function ≠ 0xFFFF := by
  induction depth with
  | zero => intro b x hx; simp [dfsBus] at hx
  | succ depth ih =>
    intro b
    apply all_forall_mem
    intro d hd
    have hd32 : d < 32 := List.mem_range.mp (List.mem_filter.mp hd).1
    have hdp : modelPresent conf b d 0 = true := (List.mem_filter.mp hd).2
    have h0 := dfsFunction_forall conf b d 0
      (valid_modelDevice conf b d 0 hd32 (by decide) hdp) ih
    unfold dfsDevice
    split
    · apply seq_forall h0
      apply all_forall_mem
      intro f hf
      have hf8 : f < 8 := by
        have := List.mem_range'.mp (List.mem_filter.mp hf).1
        omega
      exact dfsFunction_forall conf b d f
        (valid_modelDevice conf b d f hd32 hf8 (List.mem_filter.mp hf).2) ih
    · exact h0

theorem dfsAll_valid (conf : ConfigSpace) (depth : Nat) :
    ∀ x ∈ (dfsAll conf depth).1,
      x.device < 32 ∧ x.function < 8 ∧ modelVendorId conf x.bus x.device x.function ≠ 0xFFFF := by
  unfold dfsAll
  split
  · exact all_forall_mem _ (fun f _ => dfsBus_valid conf depth f)
  · exact dfsBus_valid conf depth 0

theorem mem_registry {s : Machine} (i : Int) (h0 : 0 ≤ i) (hi : i < s.num_device) :
    s.devices i ∈ registry s := by
  unfold registry
  rw [List.mem_map]
  refine ⟨i.toNat, List.mem_range.mpr (by omega), ?_⟩
  congr 1
  simp only [Int.ofNat_eq_coe]
  omega

/-- C19: after `ScanAllBus`, whether it returns `kSuccess` or `kFull`, every entry
`devices[i]` with `i < num_device` has a device number below 32 and a function number
below 8 and names a triple whose vendor id in the model is not 0xFFFF: an absent function
is never recorded. -/
theorem recorded_entries_present (conf : ConfigSpace) (fuel : Nat) (s : Machine)
    (hfuel : 33 ≤ fuel) :
    ∃ e s', ScanAllBus conf fuel s = some (e, s')
      ∧ (e = Error.kSuccess ∨ e = Error.kFull)
      ∧ (∀ i : Int, 0 ≤ i → i < s'.num_device →
          (s'.devices i).device < 32 ∧ (s'.devices i).function < 8
          ∧ modelVendorId conf (s'.devices i).bus (s'.devices i).device
              (s'.devices i).function ≠ 0xFFFF)
      ∧ ∀ x ∈ registry s', x.device < 32 ∧ x.function < 8
          ∧ modelVendorId conf x.bus x.device x.function ≠ 0xFFFF := by
  obtain ⟨s', e, _, r, _⟩ := ScanAllBus_refines conf fuel 33 s hfuel (dfsAll_33 conf)
  have hall : ∀ x ∈ registry s', x.device < 32 ∧ x.function < 8
      ∧ modelVendorId conf x.bus x.device x.function ≠ 0xFFFF := by
    rw [r]
    intro x hx
    exact dfsAll_valid conf 33 x (List.mem_of_mem_take hx)
  refine ⟨_, s', e, ?_, fun i h0 hi => hall _ (mem_registry i h0 hi), hall⟩
  split
  · exact Or.inl rfl
  · exact Or.inr rfl

/-- Witness of C19: a scan of the model with 40 functions. -/
theorem recorded_entries_present_witness :
    ∃ e s', ScanAllBus fortyModel 33 Machine.initial = some (e, s')
      ∧ (e = Error.kSuccess ∨ e = Error.kFull)
      ∧ (∀ i : Int, 0 ≤ i → i < s'.num_device →
          (s'.devices i).device < 32 ∧ (s'.devices i).function < 8
          ∧ modelVendorId fortyModel (s'.devices i).bus (s'.devices i).device
              (s'.devices i).function ≠ 0xFFFF)
      ∧ ∀ x ∈ registry s', x.device < 32 ∧ x.function < 8
          ∧ modelVendorId fortyModel x.bus x.device x.function ≠ 0xFFFF :=
  recorded_entries_present fortyModel 33 Machine.initial (by decide)

/-- C20: `MakeAddress` does not mask its device and function arguments: device 32 on bus 0
encodes as device 0 on bus 1, and function 8 of device 0 as function 0 of device 1, at
every register offset, so `ReadConfReg` and `WriteConfReg` on a `Device` record with such
fields access the registers of that other function; for bus < 256, device < 32,
function < 8 and 8-bit offsets the encoding is injective on
(bus, device, function, offset & 0xFC). -/
theorem MakeAddress_aliasing (conf : ConfigSpace) (r v : Nat) (s : Machine)
    (h1 h2 : Nat) (cc1 cc2 : ClassCode) :
    MakeAddress 0 32 0 r = MakeAddress 1 0 0 r
      ∧ MakeAddress 0 0 8 r = MakeAddress 0 1 0 r
      ∧ ReadConfReg conf ⟨0, 32, 0, h1, cc1⟩ r s = ReadConfReg conf ⟨1, 0, 0, h2, cc2⟩ r s
      ∧ ReadConfReg conf ⟨0, 0, 8, h1, cc1⟩ r s = ReadConfReg conf ⟨0, 1, 0, h2, cc2⟩ r s
      ∧ WriteConfReg ⟨0, 32, 0, h1, cc1⟩ r v s = WriteConfReg ⟨1, 0, 0, h2, cc2⟩ r v s
      ∧ WriteConfReg ⟨0, 0, 8, h1, cc1⟩ r v s = WriteConfReg ⟨0, 1, 0, h2, cc2⟩ r v s
      ∧ (∀ b d f r1 b' d' f' r2, b < 256 → d < 32 → f < 8 → r1 < 256 →
          b' < 256 → d' < 32 → f' < 8 → r2 < 256 →
          MakeAddress b d f r1 = MakeAddress b' d' f' r2 →
          b = b' ∧ d = d' ∧ f = f' ∧ r1 &&& 0xFC = r2 &&& 0xFC) := by
  have e1 : MakeAddress 0 32 0 r = MakeAddress 1 0 0 r := by
    unfold MakeAddress
    have h : sh1 1 31 ||| sh1 0 16 ||| sh1 32 11 ||| sh1 0 8
        = sh1 1 31 ||| sh1 1 16 ||| sh1 0 11 ||| sh1 0 8 := by decide
    rw [h]
  have e2 : MakeAddress 0 0 8 r = MakeAddress 0 1 0 r := by
    unfold MakeAddress
    have h : sh1 1 31 ||| sh1 0 16 ||| sh1 0 11 ||| sh1 8 8
        = sh1 1 31 ||| sh1 0 16 ||| sh1 1 11 ||| sh1 0 8 := by decide
    rw [h]
  refine ⟨e1, e2, ?_, ?_, ?_, ?_, ?_⟩
  · show ReadData conf (WriteAddress (MakeAddress 0 32 0 r) s) = _
    rw [e1]; rfl
  · show ReadData conf (WriteAddress (MakeAddress 0 0 8 r) s) = _
    rw [e2]; rfl
  · show WriteData v (WriteAddress (MakeAddress 0 32 0 r) s) = _
    rw [e1]; rfl
  · show WriteData v (WriteAddress (MakeAddress 0 0 8 r) s) = _
    rw [e2]; rfl
  · intro b d f r1 b' d' f' r2 hb hd hf hr1 hb' hd' hf' hr2 heq
    rw [MakeAddress_eq_sum b d f r1 hb hd hf hr1,
      MakeAddress_eq_sum b' d' f' r2 hb' hd' hf' hr2] at heq
    rw [and_fc_eq r1 hr1, and_fc_eq r2 hr2]
    omega

set_option maxRecDepth 100000 in
/-- Witness of C20: register 0x10 of (0, 32, 0) and of (1, 0, 0), and two encodings within
the ranges that are equal. -/
theorem MakeAddress_aliasing_witness :
    MakeAddress 0 32 0 0x10 = 0x80010010 ∧ MakeAddress 1 0 0 0x10 = 0x80010010
      ∧ (1 = 1 ∧ 2 = 2 ∧ 3 = 3 ∧ 0x10 &&& 0xFC = 0x13 &&& 0xFC) :=
  have h := MakeAddress_aliasing bridgeModel 0x10 0 Machine.initial 0 0
    ⟨0, 0, 0⟩ ⟨0, 0, 0⟩
  ⟨h.1.trans (by decide), by decide,
    h.2.2.2.2.2.2 1 2 3 0x10 1 2 3 0x13 (by decide) (by decide) (by decide) (by decide)
      (by decide) (by decide) (by decide) (by decide) (by decide)⟩

/-! ## The scanner depends on the registry only -/

theorem alike_done : Alike (fun s => some (MAKE_ERROR Error.kSuccess, s))
    (fun s => some (MAKE_ERROR Error.kSuccess, s)) :=
  fun _ _ h => ⟨rfl, h⟩

theorem alike_bind {c1 c2 c1' c2' : Machine → Option (Error × Machine)}
    (h1 : Alike c1 c1') (h2 : Alike c2 c2') : Alike (bindScan c1 c2) (bindScan c1' c2') := by
  intro s t hst
  have h := h1 s t hst
  unfold bindScan
  cases hc : c1 s with
  | none =>
    cases hc' : c1' t with
    | none => trivial
    | some r' => rw [hc, hc'] at h; exact h.elim
  | some r =>
    cases hc' : c1' t with
    | none => rw [hc, hc'] at h; exact h.elim
    | some r' =>
      obtain ⟨e, s1⟩ := r
      obtain ⟨e', t1⟩ := r'
      rw [hc, hc'] at h
      obtain ⟨he, hreg⟩ := h
      subst he
      simp only
      by_cases hf : e.failed = true
      · rw [if_pos hf, if_pos hf]
        exact ⟨rfl, hreg⟩
      · rw [if_neg hf, if_neg hf]
        exact h2 s1 t1 hreg

theorem alike_ScanFunction {scanBus scanBus' : Nat → Machine → Option (Error × Machine)}
    (conf : ConfigSpace) (b d f : Nat) (hsub : ∀ b', Alike (scanBus b') (scanBus' b')) :
    Alike (ScanFunction scanBus conf b d f) (ScanFunction scanBus' conf b d f) := by
  intro s t hst
  unfold ScanFunction
  simp only [ReadClassCode_fst, ReadHeaderType_fst, Match2_bridge, ReadBusNumbers_secondary]
  have hdev : (⟨b, d, f, modelHeaderType conf b d f, modelClassCode conf b d f⟩ : Device)
      = modelDevice conf b d f := rfl
  rw [hdev]
  generalize hs2 : (ReadHeaderType conf b d f (ReadClassCode conf b d f s).2).2 = s2
  generalize ht2 : (ReadHeaderType conf b d f (ReadClassCode conf b d f t).2).2 = t2
  have h2 : SameRegistry s2 t2 := by rw [← hs2, ← ht2]; exact hst
  unfold AddDevice
  by_cases hfull : s2.num_device = 32
  · have hfull' : t2.num_device = 32 := by rw [← h2.2]; exact hfull
    simp only [hfull, hfull', if_true, MAKE_ERROR, Error.failed]
    exact ⟨rfl, h2⟩
  · have hfull' : ¬ t2.num_device = 32 := by rw [← h2.2]; exact hfull
    simp only [hfull, hfull', if_false, MAKE_ERROR, Error.failed, Bool.false_eq_true]
    have h3 : SameRegistry
        { s2 with devices := Function.update s2.devices s2.num_device (modelDevice conf b d f)
                  num_device := s2.num_device + 1 }
        { t2 with devices := Function.update t2.devices t2.num_device (modelDevice conf b d f)
                  num_device := t2.num_device + 1 } := by
      constructor
      · show Function.update s2.devices s2.num_device _ = Function.update t2.devices t2.num_device _
        rw [h2.1, h2.2]
      · show s2.num_device + 1 = t2.num_device + 1
        rw [h2.2]
    by_cases hbr : modelIsBridge conf b d f = true
    · rw [if_pos hbr, if_pos hbr]
      exact hsub _ _ _ h3
    · rw [if_neg hbr, if_neg hbr]
      exact ⟨rfl, h3⟩

theorem alike_loop (conf : ConfigSpace) (loop loop' : List Nat → Machine → Option (Error × Machine))
    (addr : Nat → Nat) (body body' : Nat → Machine → Option (Error × Machine))
    (hnil : ∀ s, loop [] s = some (MAKE_ERROR Error.kSuccess, s))
    (hnil' : ∀ s, loop' [] s = some (MAKE_ERROR Error.kSuccess, s))
    (hcons : ∀ x rest s, loop (x :: rest) s
      = if conf (addr x) % 2 ^ 16 = 0xffff then loop rest (ReadData conf (WriteAddress (addr x) s)).2
        else bindScan (body x) (loop rest) (ReadData conf (WriteAddress (addr x) s)).2)
    (hcons' : ∀ x rest s, loop' (x :: rest) s
      = if conf (addr x) % 2 ^ 16 = 0xffff then loop' rest (ReadData conf (WriteAddress (addr x) s)).2
        else bindScan (body' x) (loop' rest) (ReadData conf (WriteAddress (addr x) s)).2)
    (hbody : ∀ x, Alike (body x) (body' x)) :
    ∀ xs, Alike (loop xs) (loop' xs) := by
  intro xs
  induction xs with
  | nil =>
    intro s t hst
    rw [hnil, hnil']
    exact ⟨rfl, hst⟩
  | cons x rest ih =>
    intro s t hst
    rw [hcons, hcons']
    by_cases habs : conf (addr x) % 2 ^ 16 = 0xffff
    · rw [if_pos habs, if_pos habs]
      exact ih _ _ hst
    · rw [if_neg habs, if_neg habs]
      exact alike_bind (hbody x) ih _ _ hst

theorem ReadVendorId_eq (conf : ConfigSpace) (b d f : Nat) (s : Machine) :
    ReadVendorId conf b d f s
      = (conf (MakeAddress b d f 0x00) % 2 ^ 16,
         (ReadData conf (WriteAddress (MakeAddress b d f 0x00) s)).2) := by
  have h := ReadVendorId_fst conf b d f s
  unfold modelVendorId at h
  exact Prod.ext h rfl

theorem ScanDeviceLoop_cons (scanBus : Nat → Machine → Option (Error × Machine))
    (conf : ConfigSpace) (b d f : Nat) (rest : List Nat) (s : Machine) :
    ScanDeviceLoop scanBus conf b d (f :: rest) s
      = if conf (MakeAddress b d f 0x00) % 2 ^ 16 = 0xffff then
          ScanDeviceLoop scanBus conf b d rest
            (ReadData conf (WriteAddress (MakeAddress b d f 0x00) s)).2
        else bindScan (ScanFunction scanBus conf b d f) (ScanDeviceLoop scanBus conf b d rest)
          (ReadData conf (WriteAddress (MakeAddress b d f 0x00) s)).2 := by
  show (if (ReadVendorId conf b d f s).1 = 0xffff then _ else _) = _
  rw [ReadVendorId_eq]
  rfl

theorem ScanBusLoop_cons (scanBus : Nat → Machine → Option (Error × Machine))
    (conf : ConfigSpace) (b d : Nat) (rest : List Nat) (s : Machine) :
    ScanBusLoop scanBus conf b (d :: rest) s
      = if conf (MakeAddress b d 0 0x00) % 2 ^ 16 = 0xffff then
          ScanBusLoop scanBus conf b rest
            (ReadData conf (WriteAddress (MakeAddress b d 0 0x00) s)).2
        else bindScan (ScanDevice scanBus conf b d) (ScanBusLoop scanBus conf b rest)
          (ReadData conf (WriteAddress (MakeAddress b d 0 0x00) s)).2 := by
  show (if (ReadVendorId conf b d 0 s).1 = 0xffff then _ else _) = _
  rw [ReadVendorId_eq]
  rfl

theorem ScanAllBusLoop_cons (conf : ConfigSpace) (fuel f : Nat) (rest : List Nat) (s : Machine) :
    ScanAllBusLoop conf fuel (f :: rest) s
      = if conf (MakeAddress 0 0 f 0x00) % 2 ^ 16 = 0xffff then
          ScanAllBusLoop conf fuel rest
            (ReadData conf (WriteAddress (MakeAddress 0 0 f 0x00) s)).2
        else bindScan (ScanBus conf fuel f) (ScanAllBusLoop conf fuel rest)
          (ReadData conf (WriteAddress (MakeAddress 0 0 f 0x00) s)).2 := by
  show (if (ReadVendorId conf 0 0 f s).1 = 0xffff then _ else _) = _
  rw [ReadVendorId_eq]
  rfl

theorem alike_ScanDevice {scanBus scanBus' : Nat → Machine → Option (Error × Machine)}
    (conf : ConfigSpace) (b d : Nat) (hsub : ∀ b', Alike (scanBus b') (scanBus' b')) :
    Alike (ScanDevice scanBus conf b d) (ScanDevice scanBus' conf b d) := by
  have hloop : ∀ fs, Alike (ScanDeviceLoop scanBus conf b d fs)
      (ScanDeviceLoop scanBus' conf b d fs) :=
    alike_loop conf _ _ (fun f => MakeAddress b d f 0x00) _ _ (fun _ => rfl) (fun _ => rfl)
      (ScanDeviceLoop_cons scanBus conf b d) (ScanDeviceLoop_cons scanBus' conf b d)
      (fun f => alike_ScanFunction conf b d f hsub)
  have htail : ∀ (sb : Nat → Machine → Option (Error × Machine)) (s : Machine),
      ScanDevice sb conf b d s = bindScan (ScanFunction sb conf b d 0)
        (fun s1 => if IsSingleFunctionDevice (modelHeaderType conf b d 0) then
            some (MAKE_ERROR Error.kSuccess,
              (ReadData conf (WriteAddress (MakeAddress b d 0 0x0c) s1)).2)
          else ScanDeviceLoop sb conf b d (List.range' 1 7)
            (ReadData conf (WriteAddress (MakeAddress b d 0 0x0c) s1)).2) s := by
    intro sb s
    unfold ScanDevice bindScan
    cases ScanFunction sb conf b d 0 s with
    | none => rfl
    | some r => simp only [ReadHeaderType_fst]; rfl
  intro s t hst
  rw [htail, htail]
  refine alike_bind (alike_ScanFunction conf b d 0 hsub) ?_ s t hst
  intro s1 t1 h1
  simp only
  split
  · exact ⟨rfl, h1⟩
  · exact hloop _ _ _ h1

theorem alike_ScanBus (conf : ConfigSpace) (fuel : Nat) :
    ∀ b, Alike (ScanBus conf fuel b) (ScanBus conf fuel b) := by
  induction fuel with
  | zero => intro b s t _; trivial
  | succ fuel ih =>
    intro b
    exact alike_loop conf _ _ (fun d => MakeAddress b d 0 0x00) _ _ (fun _ => rfl)
      (fun _ => rfl) (ScanBusLoop_cons (ScanBus conf fuel) conf b)
      (ScanBusLoop_cons (ScanBus conf fuel) conf b)
      (fun d => alike_ScanDevice conf b d ih) (List.range 32)

theorem alike_ScanAllBusLoop (conf : ConfigSpace) (fuel : Nat) (fs : List Nat) :
    Alike (ScanAllBusLoop conf fuel fs)
      (scanBuses conf fuel (fs.filter (fun f => modelPresent conf 0 0 f))) := by
  induction fs with
  | nil => exact fun s t hst => ⟨rfl, hst⟩
  | cons f rest ih =>
    intro s t hst
    rw [ScanAllBusLoop_cons]
    by_cases habs : conf (MakeAddress 0 0 f 0x00) % 2 ^ 16 = 0xffff
    · rw [if_pos habs]
      have hp : ¬ modelPresent conf 0 0 f = true := by
        unfold modelPresent modelVendorId
        intro h
        simp at h
        omega
      rw [List.filter_cons_of_neg hp]
      exact ih _ _ hst
    · rw [if_neg habs]
      have hp : modelPresent conf 0 0 f = true := by
        unfold modelPresent modelVendorId
        simp
        omega
      rw [List.filter_cons_of_pos hp]
      exact alike_bind (alike_ScanBus conf fuel f) ih _ _ hst

theorem ScanAllBus_single (conf : ConfigSpace) (fuel : Nat) (s : Machine)
    (hbit : modelHeaderType conf 0 0 0 / 2 ^ 7 % 2 = 0) :
    ScanAllBus conf fuel s
      = ScanBus conf fuel 0 (ReadHeaderType conf 0 0 0 { s with num_device := 0 }).2 := by
  unfold ScanAllBus
  simp only [ReadHeaderType_fst, IsSingleFunctionDevice_eq]
  have h : (modelHeaderType conf 0 0 0 / 2 ^ 7 % 2 == 1) = false := by
    rw [hbit]; rfl
  rw [h]
  rfl

theorem ScanAllBus_multi (conf : ConfigSpace) (fuel : Nat) (s : Machine)
    (hbit : modelHeaderType conf 0 0 0 / 2 ^ 7 % 2 = 1) :
    ScanAllBus conf fuel s
      = ScanAllBusLoop conf fuel (List.range' 1 7)
          (ReadHeaderType conf 0 0 0 { s with num_device := 0 }).2 := by
  unfold ScanAllBus
  simp only [ReadHeaderType_fst, IsSingleFunctionDevice_eq]
  have h : (modelHeaderType conf 0 0 0 / 2 ^ 7 % 2 == 1) = true := by
    rw [hbit]; rfl
  rw [h]
  rfl

theorem SameOutcome_some_right {e : Error} {t : Machine} {r : Option (Error × Machine)}
    (h : SameOutcome r (some (e, t))) :
    ∃ s', r = some (e, s') ∧ SameRegistry s' t := by
  cases r with
  | none => exact h.elim
  | some p =>
    obtain ⟨e', s'⟩ := p
    obtain ⟨he, hreg⟩ := h
    subst he
    exact ⟨s', rfl, hreg⟩

theorem scanBuses_nil (conf : ConfigSpace) (fuel : Nat) (s : Machine) :
    scanBuses conf fuel [] s = some (Error.kSuccess, s) := rfl

theorem ReadHeaderType_SameRegistry (conf : ConfigSpace) (b d f : Nat) (s : Machine) :
    SameRegistry (ReadHeaderType conf b d f s).2 s := ⟨rfl, rfl⟩

theorem ScanAllBusLoop_eq_scanRootBuses (conf : ConfigSpace) (fuel : Nat) (fs : List Nat)
    (s : Machine) : ScanAllBusLoop conf fuel fs s = scanRootBuses conf fuel fs s := by
  induction fs generalizing s with
  | nil => rfl
  | cons f rest ih =>
    rw [ScanAllBusLoop_cons]
    unfold scanRootBuses
    rw [ReadVendorId_eq]
    unfold modelVendorId
    by_cases habs : conf (MakeAddress 0 0 f 0x00) % 2 ^ 16 = 0xffff
    · rw [if_pos habs, if_neg (not_not.mpr habs)]
      exact ih _
    · rw [if_neg habs, if_pos habs]
      unfold bindScan
      cases ScanBus conf fuel f (ReadData conf (WriteAddress (MakeAddress 0 0 f 0x00) s)).2 with
      | none => rfl
      | some r =>
        obtain ⟨e, s1⟩ := r
        simp only
        by_cases hf : e.failed = true
        · rw [if_pos hf, if_pos hf]
        · rw [if_neg hf, if_neg hf]
          exact ih _

/-- The state after the vendor ids of the functions of a list were read, in order. -/
theorem scanRootBuses_absent (conf : ConfigSpace) (fuel : Nat) (fs : List Nat) (s : Machine)
    (habs : ∀ f ∈ fs, modelVendorId conf 0 0 f = 0xFFFF) :
    scanRootBuses conf fuel fs s
      = some (Error.kSuccess, fs.foldl (fun st f => (ReadVendorId conf 0 0 f st).2) s) := by
  induction fs generalizing s with
  | nil => rfl
  | cons f rest ih =>
    unfold scanRootBuses
    rw [if_neg (not_not.mpr (habs f (List.mem_cons_self _ _)))]
    rw [ih _ (fun g hg => habs g (List.mem_cons_of_mem _ hg))]
    rfl

theorem vendor_reads_trace (conf : ConfigSpace) (fs : List Nat) (s : Machine) :
    (fs.foldl (fun st f => (ReadVendorId conf 0 0 f st).2) s).trace
        = s.trace ++ (fs.map (fun f => readOps (MakeAddress 0 0 f 0x00))).flatten
      ∧ (fs.foldl (fun st f => (ReadVendorId conf 0 0 f st).2) s).devices = s.devices
      ∧ (fs.foldl (fun st f => (ReadVendorId conf 0 0 f st).2) s).num_device = s.num_device := by
  induction fs generalizing s with
  | nil => simp
  | cons f rest ih =>
    obtain ⟨h1, h2, h3⟩ := ih (ReadVendorId conf 0 0 f s).2
    refine ⟨?_, ?_, ?_⟩
    · rw [List.foldl_cons, h1]
      show (ReadData conf (WriteAddress _ s)).2.trace ++ _ = _
      rw [read_trace, List.map_cons, List.flatten_cons, List.append_assoc]
      rfl
    · rw [List.foldl_cons, h2]
      rfl
    · rw [List.foldl_cons, h3]
      rfl

theorem header_read_state (conf : ConfigSpace) (b d f : Nat) (s : Machine) :
    (ReadHeaderType conf b d f s).2.trace = s.trace ++ readOps (MakeAddress b d f 0x0c)
      ∧ (ReadHeaderType conf b d f s).2.devices = s.devices
      ∧ (ReadHeaderType conf b d f s).2.num_device = s.num_device
      ∧ (ReadHeaderType conf b d f s).2.config_address = MakeAddress b d f 0x0c := by
  refine ⟨read_trace conf _ s, rfl, rfl, ?_⟩
  simp [ReadHeaderType, ReadData, WriteAddress, IoIn32, IoOut32]

theorem range_one_seven : List.range' 1 7 = [1, 2, 3, 4, 5, 6, 7] := by decide

/-- C13: `ScanAllBus` resets `num_device` and reads the header type at (0, 0, 0). When
that header type has bit 7 clear, it then behaves exactly as `ScanBus(0)`: it returns what
`ScanBus(0)` returns from the state after the reset and the header-type read, port trace
and address latch included, and so has the result kind and registry of a reset followed by
`ScanBus(0)`. When bit 7 is set, it then behaves exactly as the scan that, for each
`f` = 1, 2, ..., 7 in increasing order, reads the vendor id at (0, 0, f) and, when it is
not 0xFFFF, runs `ScanBus(f)`, stopping at the first failure; so it has the result kind and
registry of a reset followed by `ScanBus(f)` for the present `f`, in order. Bus 0 itself
is then not scanned: if no function 1..7 is present the result is `kSuccess` with an empty
registry, and the port accesses made are the header-type read and the seven vendor-id
reads at (0, 0, 1..7), nothing else. -/
theorem ScanAllBus_root (conf : ConfigSpace) (fuel : Nat) (s : Machine) :
    ((ReadHeaderType conf 0 0 0 { s with num_device := 0 }).2.trace
          = s.trace ++ readOps (MakeAddress 0 0 0 0x0c)
        ∧ (ReadHeaderType conf 0 0 0 { s with num_device := 0 }).2.devices = s.devices
        ∧ (ReadHeaderType conf 0 0 0 { s with num_device := 0 }).2.num_device = 0)
    ∧ ((ReadHeaderType conf 0 0 0 { s with num_device := 0 }).1 / 2 ^ 7 % 2 = 0 →
        ScanAllBus conf fuel s
          = ScanBus conf fuel 0 (ReadHeaderType conf 0 0 0 { s with num_device := 0 }).2
        ∧ SameOutcome (ScanAllBus conf fuel s)
            (ScanBus conf fuel 0 { s with num_device := 0 }))
    ∧ ((ReadHeaderType conf 0 0 0 { s with num_device := 0 }).1 / 2 ^ 7 % 2 = 1 →
        ScanAllBus conf fuel s
          = scanRootBuses conf fuel [1, 2, 3, 4, 5, 6, 7]
              (ReadHeaderType conf 0 0 0 { s with num_device := 0 }).2
        ∧ SameOutcome (ScanAllBus conf fuel s)
            (scanBuses conf fuel ((List.range' 1 7).filter (fun f => modelPresent conf 0 0 f))
              { s with num_device := 0 })
        ∧ ((∀ f, 1 ≤ f → f ≤ 7 → modelVendorId conf 0 0 f = 0xFFFF) →
            ∃ s', ScanAllBus conf fuel s = some (Error.kSuccess, s')
              ∧ s'.num_device = 0 ∧ registry s' = [] ∧ s'.devices = s.devices
              ∧ s'.trace = s.trace ++ List.flatten
                  [readOps (MakeAddress 0 0 0 0x0c), readOps (MakeAddress 0 0 1 0x00),
                   readOps (MakeAddress 0 0 2 0x00), readOps (MakeAddress 0 0 3 0x00),
                   readOps (MakeAddress 0 0 4 0x00), readOps (MakeAddress 0 0 5 0x00),
                   readOps (MakeAddress 0 0 6 0x00), readOps (MakeAddress 0 0 7 0x00)])) := by
  have hhdr := header_read_state conf 0 0 0 { s with num_device := 0 }
  have hreset : SameRegistry (ReadHeaderType conf 0 0 0 { s with num_device := 0 }).2
      { s with num_device := 0 } := ReadHeaderType_SameRegistry conf 0 0 0 _
  refine ⟨⟨hhdr.1, hhdr.2.1, hhdr.2.2.1⟩, ?_, ?_⟩
  · intro hbit
    rw [ReadHeaderType_fst] at hbit
    have heq := ScanAllBus_single conf fuel s hbit
    refine ⟨heq, ?_⟩
    rw [heq]
    exact alike_ScanBus conf fuel 0 _ _ hreset
  · intro hbit
    rw [ReadHeaderType_fst] at hbit
    have hloop := ScanAllBus_multi conf fuel s hbit
    have heq : ScanAllBus conf fuel s
        = scanRootBuses conf fuel [1, 2, 3, 4, 5, 6, 7]
            (ReadHeaderType conf 0 0 0 { s with num_device := 0 }).2 := by
      rw [hloop, ScanAllBusLoop_eq_scanRootBuses, range_one_seven]
    have hout := alike_ScanAllBusLoop conf fuel (List.range' 1 7) _ _ hreset
    rw [← hloop] at hout
    refine ⟨heq, hout, ?_⟩
    intro habsent
    have hall : ∀ f ∈ [1, 2, 3, 4, 5, 6, 7], modelVendorId conf 0 0 f = 0xFFFF := by
      intro f hf
      rw [← range_one_seven] at hf
      have hr := List.mem_range'.mp hf
      exact habsent f (by omega) (by omega)
    have hrun := scanRootBuses_absent conf fuel [1, 2, 3, 4, 5, 6, 7]
      (ReadHeaderType conf 0 0 0 { s with num_device := 0 }).2 hall
    obtain ⟨ht, hd, hn⟩ := vendor_reads_trace conf [1, 2, 3, 4, 5, 6, 7]
      (ReadHeaderType conf 0 0 0 { s with num_device := 0 }).2
    have hn0 : (List.foldl (fun st f => (ReadVendorId conf 0 0 f st).2)
        (ReadHeaderType conf 0 0 0 { s with num_device := 0 }).2
        [1, 2, 3, 4, 5, 6, 7]).num_device = 0 := by rw [hn, hhdr.2.2.1]
    refine ⟨_, heq.trans hrun, hn0, registry_of_num_zero hn0, ?_, ?_⟩
    · rw [hd, hhdr.2.1]
    · rw [ht, hhdr.1, List.append_assoc]
      simp only [List.map_cons, List.map_nil, List.flatten_cons, List.flatten_nil,
        List.append_nil]

set_option maxRecDepth 100000 in
/-- Witness of C13: a multi-function root with no function 1..7 present and devices on
bus 0, which are neither probed nor recorded; and the single-function root of the bridge
model. -/
theorem ScanAllBus_root_witness :
    (∃ s', ScanAllBus multiRootModel 33 Machine.full = some (Error.kSuccess, s')
        ∧ s'.num_device = 0 ∧ registry s' = [] ∧ s'.devices = Machine.full.devices
        ∧ s'.trace = Machine.full.trace ++ List.flatten
            [readOps (MakeAddress 0 0 0 0x0c), readOps (MakeAddress 0 0 1 0x00),
             readOps (MakeAddress 0 0 2 0x00), readOps (MakeAddress 0 0 3 0x00),
             readOps (MakeAddress 0 0 4 0x00), readOps (MakeAddress 0 0 5 0x00),
             readOps (MakeAddress 0 0 6 0x00), readOps (MakeAddress 0 0 7 0x00)])
      ∧ modelVendorId multiRootModel 0 1 0 ≠ 0xFFFF
      ∧ (ScanAllBus bridgeModel 33 Machine.full
          = ScanBus bridgeModel 33 0
              (ReadHeaderType bridgeModel 0 0 0 { Machine.full with num_device := 0 }).2
        ∧ SameOutcome (ScanAllBus bridgeModel 33 Machine.full)
            (ScanBus bridgeModel 33 0 { Machine.full with num_device := 0 })) :=
  ⟨((ScanAllBus_root multiRootModel 33 Machine.full).2.2 (by decide)).2.2
      (by intro f h1 h7; interval_cases f <;> decide),
    by decide,
    (ScanAllBus_root bridgeModel 33 Machine.full).2.1 (by decide)⟩

end pci
